import Mathlib

/-!
# H264Codec (zdepth): codec lifecycle and state machine

A shallow embedding of `src/codecs/src/H264Codec.cpp`.

The vendor SDK (NvEncoderCuda, NvDecoder) and the CUDA driver are external.  Every
call the code makes into them is answered by a *reply* supplied from outside, and
is recorded, in program order, in a trace of `SdkEvent`s.  Objects created with
`std::make_shared` are identified by a number drawn from a counter (`nextId`), so
that "the same encoder object" is a statement about numbers.

Outcomes of a member function are `returned b` (the C++ `return b;`), `escaped`
(an exception that is not an `NVENCException` leaves the function) and
`undefined` (a null `shared_ptr` is dereferenced).  The `int` product
`Width * Height` is computed in 32-bit two's complement, as the compiled code does.
-/

namespace zdepth

/-! ## Bytes and `std::vector<uint8_t>` -/

/-- One `uint8_t`.  Bytes are only copied, never computed with. -/
abbrev Byte := Nat

/-- Contents of a `std::vector<uint8_t>` or of a host buffer. -/
abbrev Bytes := List Byte

/-- The call `v.resize(n)`: truncate, or pad with value-initialised (zero) bytes. -/
def resize (v : Bytes) (n : Nat) : Bytes :=
  v.take n ++ List.replicate (n - v.length) 0

/-- The call `memcpy(dest.data() + offset, src, src.size())` on a destination that
is long enough (the code always resizes first). -/
def memcpy (dest : Bytes) (offset : Nat) (src : Bytes) : Bytes :=
  dest.take offset ++ src ++ dest.drop (offset + src.length)

/-- Reading `n` bytes through a raw `uint8_t*`: the pointer is the map from offset
to the byte stored there. -/
def readBytes (p : Nat → Byte) (n : Nat) : Bytes :=
  (List.range n).map p

/-- The loop `for (auto& unit : VideoTemp) { resize; memcpy; size += unit_size; }`
of lines 180-186 and 207-213, on the pair (`compressed`, `size`). -/
def appendUnits : List Bytes → Bytes × Nat → Bytes × Nat
  | [], st => st
  | unit :: rest, (compressed, size) =>
    appendUnits rest (memcpy (resize compressed (size + unit.length)) size unit, size + unit.length)

/-! ## Calls into the driver and the SDK -/

/-- Fields of `NV_ENC_PIC_PARAMS` the code assigns; `pictureType` holds the numeric
value of the `NV_ENC_PIC_TYPE` enumerator.  All other fields stay zero. -/
structure NV_ENC_PIC_PARAMS where
  inputPitch : Nat
  encodePicFlags : Nat
  pictureType : Nat
  inputTimeStamp : Nat
deriving DecidableEq

/-- The vendor header's `NV_ENC_PIC_FLAG_FORCEIDR`. -/
def NV_ENC_PIC_FLAG_FORCEIDR : Nat := 0x2

/-- The vendor header's `NV_ENC_PIC_FLAG_OUTPUT_SPSPPS`. -/
def NV_ENC_PIC_FLAG_OUTPUT_SPSPPS : Nat := 0x4

/-- The vendor header's `NV_ENC_PIC_TYPE_P`. -/
def NV_ENC_PIC_TYPE_P : Nat := 0x0

/-- The vendor header's `NV_ENC_PIC_TYPE_IDR`. -/
def NV_ENC_PIC_TYPE_IDR : Nat := 0x3

/-- One call into the CUDA driver or the video SDK, with the arguments that matter.
`obj` is the identity of the encoder or decoder object the call is made on. -/
inductive SdkEvent where
  | cuInit
  | cuDeviceGet (gpu_index : Int)
  | cudaGetDeviceProperties (device : Int)
  | cuDevicePrimaryCtxRetain (device : Int)
  | cuDevicePrimaryCtxRelease (device : Int)
  | NvEncoderCuda (obj : Nat) (ctx : Option Nat) (width height : Int)
  | CreateDefaultEncoderParams (obj : Nat)
  | CreateEncoder (obj : Nat)
  | GetNextInputFrame (obj : Nat)
  | CopyToDeviceFrame (ctx : Option Nat) (data : Bytes) (pitch : Nat) (width height : Int)
  | EncodeFrame (obj : Nat) (pic_params : NV_ENC_PIC_PARAMS)
  | EndEncode (obj : Nat)
  | releaseEncoder (obj : Nat)
  | NvDecoder (obj : Nat) (ctx : Option Nat) (width height : Int)
  | Decode (obj : Nat) (data : Bytes) (bytes : Int)
  | releaseDecoder (obj : Nat)
deriving DecidableEq

/-- Answer of an SDK call that either returns a value or throws `NVENCException`. -/
inductive Reply (α : Type) where
  | returns (a : α)
  | throws
deriving DecidableEq

/-- Answers of the four driver calls made by `CudaContext::Create`; `none` is a
result other than `CUDA_SUCCESS` / `cudaSuccess`. -/
structure DriverReplies where
  cuInit : Bool
  cuDeviceGet : Option Int
  cudaGetDeviceProperties : Option Nat
  cuDevicePrimaryCtxRetain : Option Nat
deriving DecidableEq

/-- Answer of `EncodeFrame` / `EndEncode`: what the call leaves in the packet vector
it was handed by reference, and whether it threw. -/
structure PacketReply where
  vPacket : List Bytes
  thrown : Bool
deriving DecidableEq

/-- The SDK's `NvEncInputFrame`, as far as the code reads it. -/
structure NvEncInputFrame where
  inputPtr : Nat
  pitch : Nat
  bufferFormat : Nat
  numChromaPlanes : Nat
deriving DecidableEq

/-- Answers to the SDK calls of one `EncodeBeginNvenc`. -/
structure EncodeReplies where
  driver : DriverReplies
  NvEncoderCuda : Reply Unit
  CreateDefaultEncoderParams : Reply Unit
  CreateEncoder : Reply Unit
  GetNextInputFrame : Reply (Option NvEncInputFrame)
  CopyToDeviceFrame : Reply Unit
  EncodeFrame : PacketReply
deriving DecidableEq

/-- Answer of one `NvDecoder::Decode` submission: the returned flag and the values it
leaves in `frame_count` and `frames`.  `frames k j` is byte `j` of `frames[k]`. -/
structure DecodeReply where
  thrown : Bool
  success : Bool
  frame_count : Int
  frames : Nat → Nat → Byte

/-- Answers to the SDK calls of one `DecodeNvdec`; `Decode i` answers submission `i`
of the retry loop. -/
structure DecodeReplies where
  driver : DriverReplies
  NvDecoder : Reply Unit
  Decode : Nat → DecodeReply

/-! ## CUDA context -/

/-- The class `CudaContext`; `Context = none` is the null `CUcontext`. -/
structure CudaContext where
  GpuIndex : Int
  Device : Int
  Properties : Nat
  Context : Option Nat
deriving DecidableEq

/-- Result of `CudaContext::Create`. -/
structure CreateResult where
  ok : Bool
  ctx : CudaContext
  trace : List SdkEvent
deriving DecidableEq

/-- The function `CudaContext::Create(int gpu_index)`, lines 11-43. -/
def CudaContext.Create (c : CudaContext) (gpu_index : Int) (r : DriverReplies) : CreateResult :=
  if c.Context.isSome then
    ⟨true, c, []⟩
  else
    let c1 := { c with GpuIndex := gpu_index }
    if r.cuInit = false then
      ⟨false, c1, [.cuInit]⟩
    else
      match r.cuDeviceGet with
      | none => ⟨false, c1, [.cuInit, .cuDeviceGet gpu_index]⟩
      | some d =>
        let c2 := { c1 with Device := d }
        match r.cudaGetDeviceProperties with
        | none => ⟨false, c2, [.cuInit, .cuDeviceGet gpu_index, .cudaGetDeviceProperties d]⟩
        | some p =>
          let c3 := { c2 with Properties := p }
          match r.cuDevicePrimaryCtxRetain with
          | none =>
            ⟨false, c3, [.cuInit, .cuDeviceGet gpu_index, .cudaGetDeviceProperties d,
              .cuDevicePrimaryCtxRetain d]⟩
          | some h =>
            ⟨true, { c3 with Context := some h }, [.cuInit, .cuDeviceGet gpu_index,
              .cudaGetDeviceProperties d, .cuDevicePrimaryCtxRetain d]⟩

/-- The function `CudaContext::Destroy()`, lines 45-51. -/
def CudaContext.Destroy (c : CudaContext) : CudaContext × List SdkEvent :=
  if c.Context.isSome then
    ({ c with Context := none }, [.cuDevicePrimaryCtxRelease c.Device])
  else
    (c, [])

/-- The argument `Context.Create()` is called with: the code passes none, so the
value is the default argument of the declaration in `H264Codec.hpp`. -/
def defaultGpuIndex : Int := 0

/-! ## Codec state -/

/-- Modelled from the spec: the enumeration `VideoBackend` is declared in
`H264Codec.hpp`, which is not among the sources; the spec's BackendState has the
values Uninitialized and Active. -/
inductive VideoBackend where
  | Uninitialized
  | Active
deriving DecidableEq

/-- Data members of `H264Codec` used by the source file.  `CudaEncoder` and
`CudaDecoder` are the `shared_ptr`s: `none` is empty, `some obj` owns object `obj`.
`NextTimestamp` is taken to be an unsigned 64-bit counter; its declaration is in
`H264Codec.hpp`. -/
structure H264Codec where
  Context : CudaContext
  EncoderBackend : VideoBackend
  DecoderBackend : VideoBackend
  Width : Int
  Height : Int
  CudaEncoder : Option Nat
  CudaDecoder : Option Nat
  VideoTemp : List Bytes
  NextTimestamp : Nat
deriving DecidableEq

/-- A newly constructed instance: no context, no encoder, no decoder.  The initial
stored geometry comes from the header and is left as a parameter. -/
def H264Codec.init (width height : Int) : H264Codec :=
  { Context := ⟨0, 0, 0, none⟩
    EncoderBackend := .Uninitialized
    DecoderBackend := .Uninitialized
    Width := width
    Height := height
    CudaEncoder := none
    CudaDecoder := none
    VideoTemp := []
    NextTimestamp := 0 }

/-- How a member function ends. -/
inductive Outcome where
  | returned (b : Bool)
  | escaped
  | undefined
deriving DecidableEq

/-- Everything observable after one call of a public or backend member function:
its outcome, the instance, the caller's output vector, the object counter and the
SDK calls made, in order. -/
structure Run where
  ret : Outcome
  codec : H264Codec
  buf : Bytes
  nextId : Nat
  trace : List SdkEvent
deriving DecidableEq

/-- The function `H264Codec::CleanupCuda()`, lines 290-295. -/
def H264Codec.CleanupCuda (s : H264Codec) : H264Codec × List SdkEvent :=
  let t1 : List SdkEvent := match s.CudaEncoder with
    | some e => [.releaseEncoder e]
    | none => []
  let t2 : List SdkEvent := match s.CudaDecoder with
    | some d => [.releaseDecoder d]
    | none => []
  let c := s.Context.Destroy
  ({ s with CudaEncoder := none, CudaDecoder := none, Context := c.1 }, t1 ++ t2 ++ c.2)

/-- The block `if (width != Width || height != Height) { ... }` that opens both
`EncodeBegin` (lines 65-71) and `Decode` (lines 90-96).  The result is the state
handed to the backend function. -/
def H264Codec.resolutionCheck (s : H264Codec) (width height : Int) : H264Codec × List SdkEvent :=
  if width ≠ s.Width ∨ height ≠ s.Height then
    let c := s.CleanupCuda
    ({ c.1 with
        EncoderBackend := .Uninitialized
        DecoderBackend := .Uninitialized
        Width := width
        Height := height }, c.2)
  else
    (s, [])

/-! ## Encoder backend -/

/-- State after a prefix of a backend function: `ok = false` means the function has
already ended with `return false` (directly or through the `catch`). -/
structure Stage where
  ok : Bool
  codec : H264Codec
  nextId : Nat
  trace : List SdkEvent
deriving DecidableEq

/-- The block `if (!CudaEncoder) { ... }` of `EncodeBeginNvenc`, lines 111-134. -/
def lazyEncoder (s : H264Codec) (nextId : Nat) (r : EncodeReplies) : Stage :=
  match s.CudaEncoder with
  | some _ => ⟨true, s, nextId, []⟩
  | none =>
    let c := s.Context.Create defaultGpuIndex r.driver
    let s1 := { s with Context := c.ctx }
    if c.ok = false then
      ⟨false, s1, nextId, c.trace⟩
    else
      let t1 := c.trace ++ [.NvEncoderCuda nextId s1.Context.Context s1.Width s1.Height]
      match r.NvEncoderCuda with
      | .throws => ⟨false, s1, nextId + 1, t1⟩
      | .returns _ =>
        let s2 := { s1 with CudaEncoder := some nextId }
        let t2 := t1 ++ [.CreateDefaultEncoderParams nextId]
        match r.CreateDefaultEncoderParams with
        | .throws => ⟨false, s2, nextId + 1, t2⟩
        | .returns _ =>
          let t3 := t2 ++ [.CreateEncoder nextId]
          match r.CreateEncoder with
          | .throws => ⟨false, s2, nextId + 1, t3⟩
          | .returns _ => ⟨true, s2, nextId + 1, t3⟩

/-- The picture parameters built in lines 157-168. -/
def picParams (keyframe : Bool) (frame : NvEncInputFrame) (timestamp : Nat) : NV_ENC_PIC_PARAMS :=
  let p0 : NV_ENC_PIC_PARAMS := ⟨frame.pitch, 0, 0, 0⟩
  let p1 : NV_ENC_PIC_PARAMS :=
    if keyframe then
      { p0 with
          encodePicFlags := p0.encodePicFlags ||| (NV_ENC_PIC_FLAG_OUTPUT_SPSPPS ||| NV_ENC_PIC_FLAG_FORCEIDR)
          pictureType := NV_ENC_PIC_TYPE_IDR }
    else
      { p0 with pictureType := NV_ENC_PIC_TYPE_P }
  { p1 with inputTimeStamp := timestamp }

/-- The function `H264Codec::EncodeBeginNvenc`, lines 105-193. -/
def EncodeBeginNvenc (s : H264Codec) (nextId : Nat) (keyframe : Bool) (data compressed : Bytes)
    (r : EncodeReplies) : Run :=
  let st := lazyEncoder s nextId r
  if st.ok = false then
    ⟨.returned false, st.codec, compressed, st.nextId, st.trace⟩
  else
    match st.codec.CudaEncoder with
    | none => ⟨.undefined, st.codec, compressed, st.nextId, st.trace⟩
    | some enc =>
      let t1 := st.trace ++ [.GetNextInputFrame enc]
      match r.GetNextInputFrame with
      | .throws => ⟨.returned false, st.codec, compressed, st.nextId, t1⟩
      | .returns none => ⟨.returned false, st.codec, compressed, st.nextId, t1⟩
      | .returns (some frame) =>
        let t2 := t1 ++ [.CopyToDeviceFrame st.codec.Context.Context data frame.pitch
          st.codec.Width st.codec.Height]
        match r.CopyToDeviceFrame with
        | .throws => ⟨.returned false, st.codec, compressed, st.nextId, t2⟩
        | .returns _ =>
          let pic_params := picParams keyframe frame st.codec.NextTimestamp
          let s1 := { st.codec with NextTimestamp := (st.codec.NextTimestamp + 1) % 2 ^ 64 }
          let t3 := t2 ++ [.EncodeFrame enc pic_params]
          let s2 := { s1 with VideoTemp := r.EncodeFrame.vPacket }
          if r.EncodeFrame.thrown then
            ⟨.returned false, s2, compressed, st.nextId, t3⟩
          else
            ⟨.returned true, s2, (appendUnits s2.VideoTemp ([], 0)).1, st.nextId, t3⟩

/-- The function `H264Codec::EncodeFinishNvenc`, lines 195-220. -/
def EncodeFinishNvenc (s : H264Codec) (nextId : Nat) (compressed : Bytes) (r : PacketReply) : Run :=
  match s.CudaEncoder with
  | none => ⟨.undefined, s, compressed, nextId, []⟩
  | some enc =>
    let s1 := { s with VideoTemp := r.vPacket }
    if r.thrown then
      ⟨.returned false, s1, compressed, nextId, [.EndEncode enc]⟩
    else if s1.VideoTemp.isEmpty then
      ⟨.returned false, s1, compressed, nextId, [.EndEncode enc]⟩
    else
      ⟨.returned true, s1, (appendUnits s1.VideoTemp (compressed, compressed.length)).1, nextId,
        [.EndEncode enc]⟩

/-! ## Decoder backend -/

/-- The block `if (!CudaDecoder) { ... }` of `DecodeNvdec`, lines 230-246. -/
def lazyDecoder (s : H264Codec) (nextId : Nat) (r : DecodeReplies) : Stage :=
  match s.CudaDecoder with
  | some _ => ⟨true, s, nextId, []⟩
  | none =>
    let c := s.Context.Create defaultGpuIndex r.driver
    let s1 := { s with Context := c.ctx }
    if c.ok = false then
      ⟨false, s1, nextId, c.trace⟩
    else
      let t1 := c.trace ++ [.NvDecoder nextId s1.Context.Context s1.Width s1.Height]
      match r.NvDecoder with
      | .throws => ⟨false, s1, nextId + 1, t1⟩
      | .returns _ => ⟨true, { s1 with CudaDecoder := some nextId }, nextId + 1, t1⟩

/-- The locals `frames` and `frame_count` of `DecodeNvdec` (lines 248-250);
`frames = none` is the initial `nullptr`. -/
structure LoopVars where
  frames : Option (Nat → Nat → Byte)
  frame_count : Int

/-- How the retry loop of lines 255-273 is left. -/
inductive LoopExit where
  | returnFalse
  | caught
  | fallThrough (v : LoopVars)

/-- The loop `for (int i = 0; i < 3; ++i)` of lines 255-273, from index `i` with
`remaining = 3 - i` iterations to go.  Returns how the loop is left and the
submissions made. -/
def decodeLoop (dec : Nat) (data : Bytes) (bytes : Int) (replies : Nat → DecodeReply) :
    Nat → Nat → LoopVars → LoopExit × List SdkEvent
  | 0, _, v => (.fallThrough v, [])
  | remaining + 1, i, _ =>
    let r := replies i
    if r.thrown then
      (.caught, [.Decode dec data bytes])
    else if r.success = false then
      (.returnFalse, [.Decode dec data bytes])
    else
      let v1 : LoopVars := ⟨some r.frames, r.frame_count⟩
      if r.frame_count ≥ 1 then
        (.fallThrough v1, [.Decode dec data bytes])
      else
        let rest := decodeLoop dec data bytes replies remaining (i + 1) v1
        (rest.1, .Decode dec data bytes :: rest.2)

/-- The value of an `int` expression whose exact value is `x`: 32-bit two's
complement, wrapping around outside `-2^31 .. 2^31 - 1`. -/
def wrapInt32 (x : Int) : Int :=
  (x + 2 ^ 31) % 2 ^ 32 - 2 ^ 31

/-- The function `H264Codec::DecodeNvdec`, lines 222-288.  `y_bytes` is the `int`
product `Width * Height` of line 279, which wraps around; a negative `y_bytes`
makes `decoded.resize` throw `std::length_error`, which the `catch` for
`NVENCException` does not stop. -/
def DecodeNvdec (s : H264Codec) (nextId : Nat) (data : Bytes) (bytes : Int) (decoded : Bytes)
    (r : DecodeReplies) : Run :=
  let st := lazyDecoder s nextId r
  if st.ok = false then
    ⟨.returned false, st.codec, decoded, st.nextId, st.trace⟩
  else
    match st.codec.CudaDecoder with
    | none => ⟨.undefined, st.codec, decoded, st.nextId, st.trace⟩
    | some dec =>
      let lp := decodeLoop dec data bytes r.Decode 3 0 ⟨none, 0⟩
      let t := st.trace ++ lp.2
      match lp.1 with
      | .returnFalse => ⟨.returned false, st.codec, decoded, st.nextId, t⟩
      | .caught => ⟨.returned false, st.codec, decoded, st.nextId, t⟩
      | .fallThrough v =>
        if v.frame_count < 1 then
          ⟨.returned false, st.codec, decoded, st.nextId, t⟩
        else
          let y_bytes : Int := wrapInt32 (st.codec.Width * st.codec.Height)
          if y_bytes < 0 then
            ⟨.escaped, st.codec, decoded, st.nextId, t⟩
          else
            match v.frames with
            | none => ⟨.undefined, st.codec, decoded, st.nextId, t⟩
            | some frames =>
              ⟨.returned true, st.codec,
                memcpy (resize decoded y_bytes.toNat) 0 (readBytes (frames 0) y_bytes.toNat),
                st.nextId, t⟩

/-! ## Public API -/

/-- The function `H264Codec::EncodeBegin`, lines 57-74. -/
def EncodeBegin (s : H264Codec) (nextId : Nat) (width height : Int) (keyframe : Bool)
    (data compressed : Bytes) (r : EncodeReplies) : Run :=
  let c := s.resolutionCheck width height
  let b := EncodeBeginNvenc c.1 nextId keyframe data compressed r
  { b with trace := c.2 ++ b.trace }

/-- The function `H264Codec::EncodeFinish`, lines 76-80. -/
def EncodeFinish (s : H264Codec) (nextId : Nat) (compressed : Bytes) (r : PacketReply) : Run :=
  EncodeFinishNvenc s nextId compressed r

/-- The function `H264Codec::Decode`, lines 82-99. -/
def Decode (s : H264Codec) (nextId : Nat) (width height : Int) (data : Bytes) (bytes : Int)
    (decoded : Bytes) (r : DecodeReplies) : Run :=
  let c := s.resolutionCheck width height
  let b := DecodeNvdec c.1 nextId data bytes decoded r
  { b with trace := c.2 ++ b.trace }

/-! ## Sequences of calls -/

/-- One call of the public API together with the caller's output vector and the
answers the driver and the SDK give during it. -/
inductive Call where
  | encodeBegin (width height : Int) (keyframe : Bool) (data compressed : Bytes) (r : EncodeReplies)
  | encodeFinish (compressed : Bytes) (r : PacketReply)
  | decode (width height : Int) (data : Bytes) (bytes : Int) (decoded : Bytes) (r : DecodeReplies)

/-- Perform one call on an instance. -/
def Call.run : Call → H264Codec → Nat → Run
  | .encodeBegin width height keyframe data compressed r, s, nextId =>
    EncodeBegin s nextId width height keyframe data compressed r
  | .encodeFinish compressed r, s, nextId => EncodeFinish s nextId compressed r
  | .decode width height data bytes decoded r, s, nextId =>
    Decode s nextId width height data bytes decoded r

/-- Perform calls one after the other on one instance; each call starts from the
instance the previous one left.  Execution goes on only after a call that returned. -/
def runCalls : List Call → H264Codec → Nat → List Run
  | [], _, _ => []
  | c :: rest, s, nextId =>
    let r := c.run s nextId
    match r.ret with
    | .returned _ => r :: runCalls rest r.codec r.nextId
    | _ => [r]

/-- Arguments and SDK answers of one `EncodeBegin` call, geometry apart. -/
structure EncodeBeginArgs where
  keyframe : Bool
  data : Bytes
  compressed : Bytes
  replies : EncodeReplies
deriving DecidableEq

/-- A sequence of `EncodeBegin` calls that all pass the same geometry. -/
def encodeBeginCalls (width height : Int) (args : List EncodeBeginArgs) : List Call :=
  args.map fun a => Call.encodeBegin width height a.keyframe a.data a.compressed a.replies

/-! ## Observations on traces -/

/-- The encoder object a member function of `NvEncoderCuda` is invoked on. -/
def SdkEvent.encoderTarget : SdkEvent → Option Nat
  | .CreateDefaultEncoderParams obj => some obj
  | .CreateEncoder obj => some obj
  | .GetNextInputFrame obj => some obj
  | .EncodeFrame obj _ => some obj
  | .EndEncode obj => some obj
  | _ => none

/-- The decoder object a member function of `NvDecoder` is invoked on. -/
def SdkEvent.decoderTarget : SdkEvent → Option Nat
  | .Decode obj _ _ => some obj
  | _ => none

/-- Is the event an invocation of the `NvEncoderCuda` constructor? -/
def SdkEvent.isEncoderCtor : SdkEvent → Bool
  | .NvEncoderCuda _ _ _ _ => true
  | _ => false

/-- Number of invocations of the encoder constructor in a trace. -/
def ctorCalls (t : List SdkEvent) : Nat :=
  t.countP SdkEvent.isEncoderCtor

/-- Is the event a submission to the hardware decoder? -/
def SdkEvent.isSubmission : SdkEvent → Bool
  | .Decode _ _ _ => true
  | _ => false

/-- Number of submissions to the hardware decoder in a trace. -/
def submissions (t : List SdkEvent) : Nat :=
  t.countP SdkEvent.isSubmission

/-- A submission reports an error: it throws or returns `false`. -/
def DecodeReply.isError (r : DecodeReply) : Bool :=
  r.thrown || !r.success

/-- A submission ends the retry loop: it reports an error or returns a frame. -/
def DecodeReply.settles (r : DecodeReply) : Bool :=
  r.isError || decide (1 ≤ r.frame_count)

/-- A submission reported success with at least one frame. -/
def DecodeReply.gaveFrame (r : DecodeReply) : Bool :=
  !r.isError && decide (1 ≤ r.frame_count)

/-- Is a picture flag set in `encodePicFlags`? -/
def flagSet (flags flag : Nat) : Bool :=
  flags &&& flag != 0

/-- Index, counted from 1, of the first of the three submissions that settles, and 3
when none does. -/
def firstSettled (replies : Nat → DecodeReply) : Nat :=
  if (replies 0).settles then 1 else if (replies 1).settles then 2 else 3

/-- The event is no member-function call on an encoder or decoder object and no
encoder construction (driver calls and releases are of this kind). -/
def SdkEvent.neutral (ev : SdkEvent) : Bool :=
  ev.encoderTarget == none && ev.decoderTarget == none && !ev.isEncoderCtor && !ev.isSubmission

/-- The event touches no decoder object and no encoder object other than `n`. -/
def SdkEvent.encoderOnly (n : Nat) (ev : SdkEvent) : Bool :=
  (ev.encoderTarget == none || ev.encoderTarget == some n) && ev.decoderTarget == none &&
    !ev.isSubmission

/-- The event touches no encoder object and no decoder object other than `n`, and is
no encoder construction. -/
def SdkEvent.decoderOnly (n : Nat) (ev : SdkEvent) : Bool :=
  (ev.decoderTarget == none || ev.decoderTarget == some n) && ev.encoderTarget == none &&
    !ev.isEncoderCtor

/-- Does an `EncodeFrame` call carry picture parameters that request SPS/PPS, a
forced IDR and the IDR picture type exactly when `keyframe` is set, and the P
picture type otherwise?  Other events pass. -/
def SdkEvent.requestsAs (keyframe : Bool) : SdkEvent → Bool
  | .EncodeFrame _ p =>
    (flagSet p.encodePicFlags NV_ENC_PIC_FLAG_OUTPUT_SPSPPS == keyframe) &&
    (flagSet p.encodePicFlags NV_ENC_PIC_FLAG_FORCEIDR == keyframe) &&
    (p.pictureType == if keyframe then NV_ENC_PIC_TYPE_IDR else NV_ENC_PIC_TYPE_P)
  | _ => true

/-- Every encoder or decoder object the instance holds was created before the object
counter reached `n`. -/
def H264Codec.idsBelow (s : H264Codec) (n : Nat) : Prop :=
  (∀ e, s.CudaEncoder = some e → e < n) ∧ (∀ d, s.CudaDecoder = some d → d < n)

/-! ## Concrete instances and replies -/

/-- Driver answers of a machine with a working GPU: every call succeeds. -/
def driverOk : DriverReplies := ⟨true, some 0, some 0, some 7⟩

/-- An input frame handed out by the encoder. -/
def inputFrame : NvEncInputFrame := ⟨4096, 1024, 1, 1⟩

/-- SDK answers of an `EncodeBegin` call in which everything succeeds and the
encoder returns `units`. -/
def encodeOk (units : List Bytes) : EncodeReplies :=
  ⟨driverOk, .returns (), .returns (), .returns (), .returns (some inputFrame), .returns (),
    ⟨units, false⟩⟩

/-- SDK answers of an `EncodeBegin` call in which the encoder constructor throws. -/
def encodeCtorThrows : EncodeReplies :=
  { encodeOk [] with NvEncoderCuda := .throws }

/-- SDK answers of an `EncodeBegin` call in which `CreateEncoder` throws. -/
def encodeCreateEncoderThrows : EncodeReplies :=
  { encodeOk [] with CreateEncoder := .throws }

/-- A submission that succeeds and returns no frame. -/
def replyNoFrame : DecodeReply := ⟨false, true, 0, fun _ _ => 0⟩

/-- A submission that succeeds and returns two frames; byte `j` of frame `k` is
`10 * k + j + 1`. -/
def replyFrames : DecodeReply := ⟨false, true, 2, fun k j => 10 * k + j + 1⟩

/-- SDK answers of a `Decode` call whose submissions are answered by `f`. -/
def decodeOk (f : Nat → DecodeReply) : DecodeReplies := ⟨driverOk, .returns (), f⟩

/-- Two submissions without a frame, then frames. -/
def thirdTime (i : Nat) : DecodeReply := if i < 2 then replyNoFrame else replyFrames

/-- An instance that holds context 7, encoder object 0 and decoder object 1 for
geometry 640 x 480. -/
def codecActive : H264Codec :=
  { Context := ⟨0, 0, 0, some 7⟩
    EncoderBackend := .Uninitialized
    DecoderBackend := .Uninitialized
    Width := 640
    Height := 480
    CudaEncoder := some 0
    CudaDecoder := some 1
    VideoTemp := []
    NextTimestamp := 3 }

/-! ## Lemmas on buffers -/
theorem resize_grow (B : Bytes) (k : Nat) :
    resize B (B.length + k) = B ++ List.replicate k 0 := by
  unfold resize
  rw [List.take_of_length_le (Nat.le_add_right _ _), Nat.add_sub_cancel_left]

theorem memcpy_resize_append (B u : Bytes) :
    memcpy (resize B (B.length + u.length)) B.length u = B ++ u := by
  rw [resize_grow]
  unfold memcpy
  rw [List.take_left', List.drop_append_eq_append_drop]
  · simp
  · rfl

theorem appendUnits_append (units : List Bytes) (B : Bytes) :
    appendUnits units (B, B.length) = (B ++ units.flatten, (B ++ units.flatten).length) := by
  induction units generalizing B with
  | nil => simp [appendUnits]
  | cons u rest ih =>
    rw [appendUnits, memcpy_resize_append]
    have h := ih (B ++ u)
    rw [List.length_append] at h
    rw [h]
    simp [List.append_assoc]

/-! ## Lemmas on the backend functions -/

theorem EncodeBeginNvenc_false_buf (s : H264Codec) (nextId : Nat) (keyframe : Bool)
    (data compressed : Bytes) (r : EncodeReplies) :
    (EncodeBeginNvenc s nextId keyframe data compressed r).ret = .returned false →
    (EncodeBeginNvenc s nextId keyframe data compressed r).buf = compressed := by
  unfold EncodeBeginNvenc
  dsimp only
  repeat' split
  all_goals simp

theorem EncodeFinishNvenc_false_buf (s : H264Codec) (nextId : Nat) (compressed : Bytes)
    (r : PacketReply) : (EncodeFinishNvenc s nextId compressed r).ret = .returned false →
    (EncodeFinishNvenc s nextId compressed r).buf = compressed := by
  unfold EncodeFinishNvenc
  dsimp only
  repeat' split
  all_goals simp

theorem DecodeNvdec_false_buf (s : H264Codec) (nextId : Nat) (data : Bytes) (bytes : Int)
    (decoded : Bytes) (r : DecodeReplies) :
    (DecodeNvdec s nextId data bytes decoded r).ret = .returned false →
    (DecodeNvdec s nextId data bytes decoded r).buf = decoded := by
  unfold DecodeNvdec
  dsimp only
  repeat' split
  all_goals simp

theorem EncodeBeginNvenc_true_buf (s : H264Codec) (nextId : Nat) (keyframe : Bool)
    (data compressed : Bytes) (r : EncodeReplies) :
    (EncodeBeginNvenc s nextId keyframe data compressed r).ret = .returned true →
    (EncodeBeginNvenc s nextId keyframe data compressed r).buf = r.EncodeFrame.vPacket.flatten ∧
    (EncodeBeginNvenc s nextId keyframe data compressed r).codec.VideoTemp = r.EncodeFrame.vPacket
    := by
  have hu := appendUnits_append r.EncodeFrame.vPacket []
  simp only [List.length_nil, List.nil_append] at hu
  unfold EncodeBeginNvenc
  dsimp only
  repeat' split
  all_goals simp [hu]

/-! ## The retry loop -/

theorem firstSettled_least (replies : Nat → DecodeReply) :
    1 ≤ firstSettled replies ∧ firstSettled replies ≤ 3 ∧
    (∀ j, j + 1 < firstSettled replies → (replies j).settles = false) ∧
    (firstSettled replies < 3 → (replies (firstSettled replies - 1)).settles = true) := by
  by_cases h0 : (replies 0).settles = true
  · have e : firstSettled replies = 1 := by simp [firstSettled, h0]
    rw [e]
    exact ⟨by omega, by omega, fun j hj => by omega, fun _ => h0⟩
  by_cases h1 : (replies 1).settles = true
  · have e : firstSettled replies = 2 := by simp [firstSettled, h0, h1]
    rw [e]
    refine ⟨by omega, by omega, ?_, fun _ => h1⟩
    intro j hj
    obtain rfl : j = 0 := by omega
    simpa using h0
  · have e : firstSettled replies = 3 := by simp [firstSettled, h0, h1]
    rw [e]
    refine ⟨by omega, by omega, ?_, fun h => absurd h (by omega)⟩
    intro j hj
    rcases (by omega : j = 0 ∨ j = 1) with rfl | rfl
    · simpa using h0
    · simpa using h1

theorem decodeLoop_three (dec : Nat) (data : Bytes) (bytes : Int) (replies : Nat → DecodeReply) :
    (decodeLoop dec data bytes replies 3 0 ⟨none, 0⟩).2 =
      List.replicate (firstSettled replies) (.Decode dec data bytes) ∧
    (match (decodeLoop dec data bytes replies 3 0 ⟨none, 0⟩).1 with
      | .caught => (replies (firstSettled replies - 1)).isError = true
      | .returnFalse => (replies (firstSettled replies - 1)).isError = true
      | .fallThrough v =>
        (replies (firstSettled replies - 1)).isError = false ∧
        v.frame_count = (replies (firstSettled replies - 1)).frame_count ∧
        v.frames = some (replies (firstSettled replies - 1)).frames) := by
  simp only [decodeLoop, firstSettled, DecodeReply.settles, DecodeReply.isError]
  by_cases t0 : (replies 0).thrown = true
  · simp [t0, List.replicate]
  by_cases s0 : (replies 0).success = false
  · simp [t0, s0, List.replicate]
  by_cases f0 : (replies 0).frame_count ≥ 1
  · simp [t0, s0, f0, List.replicate]
  by_cases t1 : (replies 1).thrown = true
  · simp [t0, s0, f0, t1, List.replicate]
  by_cases s1 : (replies 1).success = false
  · simp [t0, s0, f0, t1, s1, List.replicate]
  by_cases f1 : (replies 1).frame_count ≥ 1
  · simp [t0, s0, f0, t1, s1, f1, List.replicate]
  by_cases t2 : (replies 2).thrown = true
  · simp [t0, s0, f0, t1, s1, f1, t2, List.replicate]
  by_cases s2 : (replies 2).success = false
  · simp [t0, s0, f0, t1, s1, f1, t2, s2, List.replicate]
  by_cases f2 : (replies 2).frame_count ≥ 1
  · simp [t0, s0, f0, t1, s1, f1, t2, s2, f2, List.replicate]
  · simp [t0, s0, f0, t1, s1, f1, t2, s2, f2, List.replicate]

/-! ## The resolution check -/

theorem resolutionCheck_changed (s : H264Codec) (width height : Int)
    (h : width ≠ s.Width ∨ height ≠ s.Height) :
    (s.resolutionCheck width height).1 =
      { s with
          Context := { s.Context with Context := none }
          EncoderBackend := .Uninitialized
          DecoderBackend := .Uninitialized
          Width := width
          Height := height
          CudaEncoder := none
          CudaDecoder := none } := by
  unfold H264Codec.resolutionCheck H264Codec.CleanupCuda CudaContext.Destroy
  rw [if_pos h]
  by_cases hc : s.Context.Context.isSome = true
  · simp [hc]
  · have hn : s.Context.Context = none := by simpa using hc
    cases hs : s.Context with
    | mk g d p c =>
      rw [hs] at hn
      simp only at hn
      subst hn
      simp

theorem resolutionCheck_same (s : H264Codec) (width height : Int)
    (hw : width = s.Width) (hh : height = s.Height) :
    s.resolutionCheck width height = (s, []) := by
  unfold H264Codec.resolutionCheck
  simp [hw, hh]

theorem resolutionCheck_geometry (s : H264Codec) (width height : Int) :
    (s.resolutionCheck width height).1.Width = width ∧
    (s.resolutionCheck width height).1.Height = height := by
  by_cases h : width ≠ s.Width ∨ height ≠ s.Height
  · rw [resolutionCheck_changed s width height h]
    simp
  · have hw : width = s.Width := by
      by_contra hne
      exact h (Or.inl hne)
    have hh : height = s.Height := by
      by_contra hne
      exact h (Or.inr hne)
    rw [resolutionCheck_same s width height hw hh]
    exact ⟨hw.symm, hh.symm⟩

theorem resolutionCheck_releases (s : H264Codec) (width height : Int)
    (h : width ≠ s.Width ∨ height ≠ s.Height) :
    (∀ e, s.CudaEncoder = some e → .releaseEncoder e ∈ (s.resolutionCheck width height).2) ∧
    (∀ d, s.CudaDecoder = some d → .releaseDecoder d ∈ (s.resolutionCheck width height).2) ∧
    (∀ c, s.Context.Context = some c →
      .cuDevicePrimaryCtxRelease s.Context.Device ∈ (s.resolutionCheck width height).2) := by
  unfold H264Codec.resolutionCheck H264Codec.CleanupCuda CudaContext.Destroy
  rw [if_pos h]
  refine ⟨?_, ?_, ?_⟩
  · intro e he
    simp [he]
  · intro d hd
    simp [hd]
  · intro c hc
    simp [hc]

/-! ## Traces -/

theorem neutral_encoderOnly (n : Nat) (t : List SdkEvent) (h : t.all SdkEvent.neutral = true) :
    t.all (SdkEvent.encoderOnly n) = true := by
  rw [List.all_eq_true] at h ⊢
  intro ev hev
  have := h ev hev
  simp only [SdkEvent.neutral, Bool.and_eq_true, beq_iff_eq, Bool.not_eq_true'] at this
  simp [SdkEvent.encoderOnly, this]

theorem neutral_decoderOnly (n : Nat) (t : List SdkEvent) (h : t.all SdkEvent.neutral = true) :
    t.all (SdkEvent.decoderOnly n) = true := by
  rw [List.all_eq_true] at h ⊢
  intro ev hev
  have := h ev hev
  simp only [SdkEvent.neutral, Bool.and_eq_true, beq_iff_eq, Bool.not_eq_true'] at this
  simp [SdkEvent.decoderOnly, this]

theorem neutral_counts (t : List SdkEvent) (h : t.all SdkEvent.neutral = true) :
    ctorCalls t = 0 ∧ submissions t = 0 := by
  rw [List.all_eq_true] at h
  unfold ctorCalls submissions
  rw [List.countP_eq_zero, List.countP_eq_zero]
  constructor
  · intro ev hev
    have := h ev hev
    simp only [SdkEvent.neutral, Bool.and_eq_true, beq_iff_eq, Bool.not_eq_true'] at this
    simp [this]
  · intro ev hev
    have := h ev hev
    simp only [SdkEvent.neutral, Bool.and_eq_true, beq_iff_eq, Bool.not_eq_true'] at this
    simp [this]

theorem resolutionCheck_trace (s : H264Codec) (width height : Int) :
    (s.resolutionCheck width height).2.all SdkEvent.neutral = true := by
  unfold H264Codec.resolutionCheck H264Codec.CleanupCuda CudaContext.Destroy
  dsimp only
  repeat' split
  all_goals simp [SdkEvent.neutral, SdkEvent.encoderTarget, SdkEvent.decoderTarget,
    SdkEvent.isEncoderCtor, SdkEvent.isSubmission]

theorem Create_trace (c : CudaContext) (gpu_index : Int) (r : DriverReplies) :
    (c.Create gpu_index r).trace.all SdkEvent.neutral = true := by
  unfold CudaContext.Create
  dsimp only
  repeat' split
  all_goals simp [SdkEvent.neutral, SdkEvent.encoderTarget, SdkEvent.decoderTarget,
    SdkEvent.isEncoderCtor, SdkEvent.isSubmission]

theorem lazyEncoder_absent (s : H264Codec) (nextId : Nat) (r : EncodeReplies)
    (he : s.CudaEncoder = none) :
    ((lazyEncoder s nextId r).ok = true → (lazyEncoder s nextId r).codec.CudaEncoder = some nextId) ∧
    (lazyEncoder s nextId r).trace.all (SdkEvent.encoderOnly nextId) = true := by
  have hc := neutral_encoderOnly nextId _ (Create_trace s.Context defaultGpuIndex r.driver)
  revert hc
  unfold lazyEncoder
  simp only [he]
  generalize s.Context.Create defaultGpuIndex r.driver = c
  intro hc
  repeat' split
  all_goals refine ⟨by simp_all, ?_⟩
  all_goals
    rw [List.all_eq_true] at hc
    simp [SdkEvent.encoderOnly, SdkEvent.encoderTarget, SdkEvent.decoderTarget,
      SdkEvent.isSubmission]
    simpa [SdkEvent.encoderOnly] using hc

/-! ## Lazy construction of the encoder -/

theorem EncodeBeginNvenc_returns (s : H264Codec) (nextId : Nat) (keyframe : Bool)
    (data compressed : Bytes) (r : EncodeReplies) :
    ∃ b, (EncodeBeginNvenc s nextId keyframe data compressed r).ret = .returned b := by
  have hl : (lazyEncoder s nextId r).ok = true →
      (lazyEncoder s nextId r).codec.CudaEncoder ≠ none := by
    unfold lazyEncoder
    dsimp only
    repeat' split
    all_goals simp_all
  revert hl
  unfold EncodeBeginNvenc
  dsimp only
  repeat' split
  all_goals simp_all

theorem EncodeBeginNvenc_present (s : H264Codec) (nextId : Nat) (keyframe : Bool)
    (data compressed : Bytes) (r : EncodeReplies) (e : Nat) (he : s.CudaEncoder = some e) :
    (EncodeBeginNvenc s nextId keyframe data compressed r).codec.CudaEncoder = some e ∧
    (EncodeBeginNvenc s nextId keyframe data compressed r).codec.Width = s.Width ∧
    (EncodeBeginNvenc s nextId keyframe data compressed r).codec.Height = s.Height ∧
    (EncodeBeginNvenc s nextId keyframe data compressed r).nextId = nextId ∧
    ctorCalls (EncodeBeginNvenc s nextId keyframe data compressed r).trace = 0 ∧
    (EncodeBeginNvenc s nextId keyframe data compressed r).trace.all (SdkEvent.encoderOnly e)
      = true := by
  have hl : lazyEncoder s nextId r = ⟨true, s, nextId, []⟩ := by
    unfold lazyEncoder
    simp [he]
  unfold EncodeBeginNvenc
  rw [hl]
  dsimp only
  simp only [he]
  repeat' split
  all_goals simp_all [ctorCalls, SdkEvent.isEncoderCtor, SdkEvent.encoderTarget,
    SdkEvent.encoderOnly, SdkEvent.decoderTarget, SdkEvent.isSubmission]

theorem EncodeBeginNvenc_absent_targets (s : H264Codec) (nextId : Nat) (keyframe : Bool)
    (data compressed : Bytes) (r : EncodeReplies) (he : s.CudaEncoder = none) :
    (EncodeBeginNvenc s nextId keyframe data compressed r).trace.all (SdkEvent.encoderOnly nextId)
      = true := by
  have hl := lazyEncoder_absent s nextId r he
  revert hl
  unfold EncodeBeginNvenc
  generalize lazyEncoder s nextId r = st
  rintro ⟨h1, h2⟩
  dsimp only
  repeat' split
  all_goals first
    | exact h2
    | (have hn : st.codec.CudaEncoder = some nextId := h1 (by simp_all)
       simp_all [SdkEvent.encoderOnly, SdkEvent.encoderTarget, SdkEvent.decoderTarget,
         SdkEvent.isSubmission])

theorem lazyEncoder_constructs (s : H264Codec) (nextId : Nat) (r : EncodeReplies)
    (he : s.CudaEncoder = none)
    (hctx : (s.Context.Create defaultGpuIndex r.driver).ok = true)
    (hctor : r.NvEncoderCuda = .returns ()) :
    (lazyEncoder s nextId r).codec.CudaEncoder = some nextId ∧
    (lazyEncoder s nextId r).codec.Width = s.Width ∧
    (lazyEncoder s nextId r).codec.Height = s.Height ∧
    (lazyEncoder s nextId r).nextId = nextId + 1 ∧
    ctorCalls (lazyEncoder s nextId r).trace = 1 ∧
    SdkEvent.NvEncoderCuda nextId (s.Context.Create defaultGpuIndex r.driver).ctx.Context
      s.Width s.Height ∈ (lazyEncoder s nextId r).trace := by
  have hc := (neutral_counts _ (Create_trace s.Context defaultGpuIndex r.driver)).1
  revert hc hctx
  unfold lazyEncoder
  simp only [he, hctor]
  generalize s.Context.Create defaultGpuIndex r.driver = c
  intro hctx hc
  unfold ctorCalls at hc ⊢
  simp only [hctx]
  repeat' split
  all_goals simp_all [List.countP_append, SdkEvent.isEncoderCtor]

theorem EncodeBeginNvenc_constructs (s : H264Codec) (nextId : Nat) (keyframe : Bool)
    (data compressed : Bytes) (r : EncodeReplies) (he : s.CudaEncoder = none)
    (hctx : (s.Context.Create defaultGpuIndex r.driver).ok = true)
    (hctor : r.NvEncoderCuda = .returns ()) :
    (EncodeBeginNvenc s nextId keyframe data compressed r).codec.CudaEncoder = some nextId ∧
    (EncodeBeginNvenc s nextId keyframe data compressed r).codec.Width = s.Width ∧
    (EncodeBeginNvenc s nextId keyframe data compressed r).codec.Height = s.Height ∧
    (EncodeBeginNvenc s nextId keyframe data compressed r).nextId = nextId + 1 ∧
    ctorCalls (EncodeBeginNvenc s nextId keyframe data compressed r).trace = 1 ∧
    SdkEvent.NvEncoderCuda nextId (s.Context.Create defaultGpuIndex r.driver).ctx.Context
      s.Width s.Height ∈ (EncodeBeginNvenc s nextId keyframe data compressed r).trace := by
  have hl := lazyEncoder_constructs s nextId r he hctx hctor
  revert hl
  unfold EncodeBeginNvenc
  generalize lazyEncoder s nextId r = st
  generalize SdkEvent.NvEncoderCuda nextId (s.Context.Create defaultGpuIndex r.driver).ctx.Context
    s.Width s.Height = ctor
  rintro ⟨h1, h2, h3, h4, h5, h6⟩
  unfold ctorCalls at h5 ⊢
  dsimp only
  repeat' split
  all_goals simp_all [List.countP_append, SdkEvent.isEncoderCtor]

/-! ## The decoder backend -/

theorem readBytes_length (p : Nat → Byte) (n : Nat) : (readBytes p n).length = n := by
  simp [readBytes]

theorem memcpy_resize_whole (d src : Bytes) : memcpy (resize d src.length) 0 src = src := by
  have hl : (resize d src.length).length = src.length := by
    unfold resize
    simp only [List.length_append, List.length_take, List.length_replicate]
    omega
  unfold memcpy
  rw [List.take_zero, Nat.zero_add, List.drop_of_length_le (Nat.le_of_eq hl)]
  simp

theorem lazyDecoder_spec (s : H264Codec) (nextId : Nat) (r : DecodeReplies) :
    ((lazyDecoder s nextId r).ok = true → (lazyDecoder s nextId r).codec.CudaDecoder ≠ none) ∧
    (s.CudaDecoder = none → (lazyDecoder s nextId r).ok = true →
      (lazyDecoder s nextId r).codec.CudaDecoder = some nextId) ∧
    (lazyDecoder s nextId r).codec.Width = s.Width ∧
    (lazyDecoder s nextId r).codec.Height = s.Height ∧
    (lazyDecoder s nextId r).codec.CudaEncoder = s.CudaEncoder ∧
    (lazyDecoder s nextId r).trace.all SdkEvent.neutral = true := by
  have hc := Create_trace s.Context defaultGpuIndex r.driver
  revert hc
  unfold lazyDecoder
  generalize s.Context.Create defaultGpuIndex r.driver = c
  intro hc
  cases hd : s.CudaDecoder with
  | some d => simp [hd]
  | none =>
    by_cases hok : c.ok = false
    · simp [hok, hc]
    · cases hr : r.NvDecoder <;>
        simp [hok, hc, SdkEvent.neutral, SdkEvent.encoderTarget, SdkEvent.decoderTarget,
          SdkEvent.isEncoderCtor, SdkEvent.isSubmission]

theorem DecodeNvdec_reached (s : H264Codec) (nextId : Nat) (data : Bytes) (bytes : Int)
    (decoded : Bytes) (r : DecodeReplies) (hok : (lazyDecoder s nextId r).ok = true) :
    submissions (DecodeNvdec s nextId data bytes decoded r).trace = firstSettled r.Decode ∧
    ((r.Decode (firstSettled r.Decode - 1)).gaveFrame = false →
      (DecodeNvdec s nextId data bytes decoded r).ret = .returned false) ∧
    ((r.Decode (firstSettled r.Decode - 1)).gaveFrame = true →
      (wrapInt32 (s.Width * s.Height) < 0 →
        (DecodeNvdec s nextId data bytes decoded r).ret = .escaped) ∧
      (0 ≤ wrapInt32 (s.Width * s.Height) →
        (DecodeNvdec s nextId data bytes decoded r).ret = .returned true ∧
        (DecodeNvdec s nextId data bytes decoded r).buf =
          readBytes ((r.Decode (firstSettled r.Decode - 1)).frames 0)
            (wrapInt32 (s.Width * s.Height)).toNat)) := by
  obtain ⟨h1, -, hW, hH, -, ht⟩ := lazyDecoder_spec s nextId r
  have hs := (neutral_counts _ ht).2
  have hne := h1 hok
  revert hs hne hW hH
  unfold DecodeNvdec
  generalize lazyDecoder s nextId r = st at hok ⊢
  intro hW hH hs hne
  obtain ⟨dec, hdec⟩ := Option.ne_none_iff_exists'.mp hne
  obtain ⟨hl1, hl2⟩ := decodeLoop_three dec data bytes r.Decode
  revert hl1 hl2
  simp only [hok, hdec, hW, hH, Bool.true_eq_false, if_false]
  generalize decodeLoop dec data bytes r.Decode 3 0 ⟨none, 0⟩ = lp
  intro hl1 hl2
  have hcount : submissions (st.trace ++ lp.2) = firstSettled r.Decode := by
    unfold submissions at hs ⊢
    rw [List.countP_append, hs, hl1, List.countP_replicate]
    simp [SdkEvent.isSubmission]
  rcases lp with ⟨ex, tr⟩
  simp only at hl1 hl2 hcount
  cases ex with
  | returnFalse =>
    simp only at hl2
    simp [DecodeReply.gaveFrame, hl2, hcount]
  | caught =>
    simp only at hl2
    simp [DecodeReply.gaveFrame, hl2, hcount]
  | fallThrough v =>
    obtain ⟨he, hfc, hfr⟩ := hl2
    by_cases hlt : v.frame_count < 1
    · have hg : ¬ 1 ≤ (r.Decode (firstSettled r.Decode - 1)).frame_count := by
        rw [← hfc]
        omega
      simp [DecodeReply.gaveFrame, hlt, hg, hcount]
    · have hg : 1 ≤ (r.Decode (firstSettled r.Decode - 1)).frame_count := by
        rw [← hfc]
        omega
      simp only [hlt, hfr, if_false, Bool.false_eq_true]
      refine ⟨?_, ?_, ?_⟩
      · split_ifs <;> exact hcount
      · intro hgf
        simp [DecodeReply.gaveFrame, he, hg] at hgf
      · intro _
        refine ⟨?_, ?_⟩
        · intro h
          rw [if_pos h]
        · intro h
          rw [if_neg (by omega)]
          refine ⟨rfl, ?_⟩
          have := memcpy_resize_whole decoded
            (readBytes ((r.Decode (firstSettled r.Decode - 1)).frames 0)
              (wrapInt32 (s.Width * s.Height)).toNat)
          rw [readBytes_length] at this
          exact this

theorem DecodeNvdec_absent_targets (s : H264Codec) (nextId : Nat) (data : Bytes) (bytes : Int)
    (decoded : Bytes) (r : DecodeReplies) (hd : s.CudaDecoder = none) :
    (DecodeNvdec s nextId data bytes decoded r).trace.all (SdkEvent.decoderOnly nextId) = true := by
  obtain ⟨-, h2, -, -, -, ht⟩ := lazyDecoder_spec s nextId r
  have hn := neutral_decoderOnly nextId _ ht
  have h2 := h2 hd
  revert hn h2
  unfold DecodeNvdec
  generalize lazyDecoder s nextId r = st
  intro hn h2
  by_cases hok : st.ok = false
  · simp only [hok, if_true]
    exact hn
  · have hok' : st.ok = true := by simpa using hok
    have hdec := h2 hok'
    obtain ⟨hl1, -⟩ := decodeLoop_three nextId data bytes r.Decode
    have hall : (st.trace ++ (decodeLoop nextId data bytes r.Decode 3 0 ⟨none, 0⟩).2).all
        (SdkEvent.decoderOnly nextId) = true := by
      rw [List.all_append, hn, hl1]
      simp [SdkEvent.decoderOnly, SdkEvent.decoderTarget, SdkEvent.encoderTarget,
        SdkEvent.isEncoderCtor]
    revert hall
    simp only [hok', hdec, Bool.true_eq_false, if_false]
    generalize decodeLoop nextId data bytes r.Decode 3 0 ⟨none, 0⟩ = lp
    intro hall
    repeat' split
    all_goals exact hall

/-! ## Sequences of `EncodeBegin` calls -/

theorem EncodeBegin_returns (s : H264Codec) (nextId : Nat) (width height : Int) (keyframe : Bool)
    (data compressed : Bytes) (r : EncodeReplies) :
    ∃ b, (EncodeBegin s nextId width height keyframe data compressed r).ret = .returned b :=
  EncodeBeginNvenc_returns _ nextId keyframe data compressed r

theorem resolutionCheck_encoder_absent (s : H264Codec) (width height : Int)
    (h : s.CudaEncoder = none ∨ width ≠ s.Width ∨ height ≠ s.Height) :
    (s.resolutionCheck width height).1.CudaEncoder = none := by
  by_cases hc : width ≠ s.Width ∨ height ≠ s.Height
  · rw [resolutionCheck_changed s width height hc]
  · rcases h with h | h
    · have hw : width = s.Width := by
        by_contra hne
        exact hc (Or.inl hne)
      have hh : height = s.Height := by
        by_contra hne
        exact hc (Or.inr hne)
      rw [resolutionCheck_same s width height hw hh]
      exact h
    · exact absurd h hc

theorem EncodeBegin_present (s : H264Codec) (nextId : Nat) (width height : Int) (keyframe : Bool)
    (data compressed : Bytes) (r : EncodeReplies) (e : Nat) (he : s.CudaEncoder = some e)
    (hw : s.Width = width) (hh : s.Height = height) :
    (EncodeBegin s nextId width height keyframe data compressed r).codec.CudaEncoder = some e ∧
    (EncodeBegin s nextId width height keyframe data compressed r).codec.Width = width ∧
    (EncodeBegin s nextId width height keyframe data compressed r).codec.Height = height ∧
    (EncodeBegin s nextId width height keyframe data compressed r).nextId = nextId ∧
    ctorCalls (EncodeBegin s nextId width height keyframe data compressed r).trace = 0 ∧
    (EncodeBegin s nextId width height keyframe data compressed r).trace.all
      (SdkEvent.encoderOnly e) = true := by
  unfold EncodeBegin
  rw [resolutionCheck_same s width height hw.symm hh.symm]
  have h := EncodeBeginNvenc_present s nextId keyframe data compressed r e he
  rw [hw, hh] at h
  simpa using h

theorem EncodeBegin_constructs (s : H264Codec) (nextId : Nat) (width height : Int)
    (keyframe : Bool) (data compressed : Bytes) (r : EncodeReplies)
    (he : s.CudaEncoder = none ∨ width ≠ s.Width ∨ height ≠ s.Height)
    (hctx : ((s.resolutionCheck width height).1.Context.Create defaultGpuIndex r.driver).ok = true)
    (hctor : r.NvEncoderCuda = .returns ()) :
    (EncodeBegin s nextId width height keyframe data compressed r).codec.CudaEncoder
      = some nextId ∧
    (EncodeBegin s nextId width height keyframe data compressed r).codec.Width = width ∧
    (EncodeBegin s nextId width height keyframe data compressed r).codec.Height = height ∧
    ctorCalls (EncodeBegin s nextId width height keyframe data compressed r).trace = 1 ∧
    (EncodeBegin s nextId width height keyframe data compressed r).trace.all
      (SdkEvent.encoderOnly nextId) = true ∧
    SdkEvent.NvEncoderCuda nextId
      ((s.resolutionCheck width height).1.Context.Create defaultGpuIndex r.driver).ctx.Context
      width height ∈ (EncodeBegin s nextId width height keyframe data compressed r).trace := by
  have habs := resolutionCheck_encoder_absent s width height he
  obtain ⟨hW, hH⟩ := resolutionCheck_geometry s width height
  have hn := resolutionCheck_trace s width height
  obtain ⟨h1, h2, h3, -, h5, h6⟩ := EncodeBeginNvenc_constructs
    (s.resolutionCheck width height).1 nextId keyframe data compressed r habs hctx hctor
  have h7 := EncodeBeginNvenc_absent_targets
    (s.resolutionCheck width height).1 nextId keyframe data compressed r habs
  rw [hW] at h2
  rw [hH] at h3
  rw [hW, hH] at h6
  unfold EncodeBegin
  dsimp only
  refine ⟨h1, h2, h3, ?_, ?_, ?_⟩
  · unfold ctorCalls at h5 ⊢
    rw [List.countP_append, h5]
    have := (neutral_counts _ hn).1
    unfold ctorCalls at this
    rw [this]
  · rw [List.all_append, h7, neutral_encoderOnly nextId _ hn]
    rfl
  · exact List.mem_append_right _ h6

theorem runCalls_encoder_present (width height : Int) (e : Nat) (args : List EncodeBeginArgs) :
    ∀ (s : H264Codec) (nextId : Nat), s.CudaEncoder = some e → s.Width = width →
      s.Height = height →
      (runCalls (encodeBeginCalls width height args) s nextId).length = args.length ∧
      ∀ R ∈ runCalls (encodeBeginCalls width height args) s nextId,
        ctorCalls R.trace = 0 ∧ R.codec.CudaEncoder = some e ∧
        R.trace.all (SdkEvent.encoderOnly e) = true := by
  induction args with
  | nil =>
    intro s nextId _ _ _
    simp [encodeBeginCalls, runCalls]
  | cons a rest ih =>
    intro s nextId he hw hh
    obtain ⟨h1, h2, h3, -, h5, h6⟩ := EncodeBegin_present s nextId width height a.keyframe a.data
      a.compressed a.replies e he hw hh
    obtain ⟨b, hb⟩ := EncodeBegin_returns s nextId width height a.keyframe a.data
      a.compressed a.replies
    have hrun : runCalls (encodeBeginCalls width height (a :: rest)) s nextId =
        EncodeBegin s nextId width height a.keyframe a.data a.compressed a.replies ::
          runCalls (encodeBeginCalls width height rest)
            (EncodeBegin s nextId width height a.keyframe a.data a.compressed a.replies).codec
            (EncodeBegin s nextId width height a.keyframe a.data a.compressed a.replies).nextId
        := by
      simp [encodeBeginCalls, runCalls, Call.run, hb]
    obtain ⟨ihl, ihm⟩ := ih _
      (EncodeBegin s nextId width height a.keyframe a.data a.compressed a.replies).nextId h1 h2 h3
    rw [hrun]
    refine ⟨by simp [ihl], ?_⟩
    intro R hR
    rcases List.mem_cons.mp hR with rfl | hR
    · exact ⟨h5, h1, h6⟩
    · exact ihm R hR

/-! ## Object identities -/

theorem resolutionCheck_idsBelow (s : H264Codec) (n : Nat) (width height : Int)
    (h : s.idsBelow n) : (s.resolutionCheck width height).1.idsBelow n := by
  by_cases hc : width ≠ s.Width ∨ height ≠ s.Height
  · rw [resolutionCheck_changed s width height hc]
    simp [H264Codec.idsBelow]
  · have hw : width = s.Width := by
      by_contra hne
      exact hc (Or.inl hne)
    have hh : height = s.Height := by
      by_contra hne
      exact hc (Or.inr hne)
    rw [resolutionCheck_same s width height hw hh]
    exact h

theorem lazyEncoder_idsBelow (s : H264Codec) (n : Nat) (r : EncodeReplies) (h : s.idsBelow n) :
    (lazyEncoder s n r).codec.idsBelow (lazyEncoder s n r).nextId ∧
    n ≤ (lazyEncoder s n r).nextId := by
  obtain ⟨h1, h2⟩ := h
  unfold lazyEncoder
  cases he : s.CudaEncoder with
  | some e => exact ⟨⟨h1, h2⟩, le_refl _⟩
  | none =>
    have h2' : ∀ d, s.CudaDecoder = some d → d < n + 1 := fun d hd => Nat.lt_succ_of_lt (h2 d hd)
    by_cases hok : (s.Context.Create defaultGpuIndex r.driver).ok = false
    · simp [hok, H264Codec.idsBelow, he]
      exact h2
    · cases r.NvEncoderCuda <;> cases r.CreateDefaultEncoderParams <;> cases r.CreateEncoder <;>
        simp [hok, H264Codec.idsBelow, he] <;> assumption

theorem EncodeBeginNvenc_idsBelow (s : H264Codec) (n : Nat) (keyframe : Bool)
    (data compressed : Bytes) (r : EncodeReplies) (h : s.idsBelow n) :
    (EncodeBeginNvenc s n keyframe data compressed r).codec.idsBelow
      (EncodeBeginNvenc s n keyframe data compressed r).nextId ∧
    n ≤ (EncodeBeginNvenc s n keyframe data compressed r).nextId := by
  have hl := lazyEncoder_idsBelow s n r h
  revert hl
  unfold EncodeBeginNvenc
  generalize lazyEncoder s n r = st
  intro hl
  dsimp only
  repeat' split
  all_goals exact hl

theorem DecodeNvdec_idsBelow (s : H264Codec) (n : Nat) (data : Bytes) (bytes : Int)
    (decoded : Bytes) (r : DecodeReplies) (h : s.idsBelow n) :
    (DecodeNvdec s n data bytes decoded r).codec.idsBelow
      (DecodeNvdec s n data bytes decoded r).nextId ∧
    n ≤ (DecodeNvdec s n data bytes decoded r).nextId := by
  have hl : (lazyDecoder s n r).codec.idsBelow (lazyDecoder s n r).nextId ∧
      n ≤ (lazyDecoder s n r).nextId := by
    obtain ⟨h1, h2⟩ := h
    unfold lazyDecoder
    cases hd : s.CudaDecoder with
    | some d => exact ⟨⟨h1, h2⟩, le_refl _⟩
    | none =>
      have h1' : ∀ e, s.CudaEncoder = some e → e < n + 1 :=
        fun e he => Nat.lt_succ_of_lt (h1 e he)
      by_cases hok : (s.Context.Create defaultGpuIndex r.driver).ok = false
      · simp [hok, H264Codec.idsBelow, hd]
        exact h1
      · cases r.NvDecoder <;> simp [hok, H264Codec.idsBelow, hd] <;> assumption
  revert hl
  unfold DecodeNvdec
  generalize lazyDecoder s n r = st
  intro hl
  dsimp only
  repeat' split
  all_goals exact hl

theorem Call_run_idsBelow (c : Call) (s : H264Codec) (n : Nat) (h : s.idsBelow n) :
    (c.run s n).codec.idsBelow (c.run s n).nextId ∧ n ≤ (c.run s n).nextId := by
  cases c with
  | encodeBegin width height keyframe data compressed r =>
    exact EncodeBeginNvenc_idsBelow _ n keyframe data compressed r
      (resolutionCheck_idsBelow s n width height h)
  | encodeFinish compressed r =>
    simp only [Call.run, EncodeFinish, EncodeFinishNvenc]
    repeat' split
    all_goals exact ⟨h, le_refl _⟩
  | decode width height data bytes decoded r =>
    exact DecodeNvdec_idsBelow _ n data bytes decoded r
      (resolutionCheck_idsBelow s n width height h)

theorem runCalls_idsBelow (calls : List Call) :
    ∀ (s : H264Codec) (n : Nat), s.idsBelow n →
      ∀ R ∈ runCalls calls s n, R.codec.idsBelow R.nextId := by
  induction calls with
  | nil =>
    intro s n _ R hR
    simp [runCalls] at hR
  | cons c rest ih =>
    intro s n h R hR
    obtain ⟨h1, -⟩ := Call_run_idsBelow c s n h
    unfold runCalls at hR
    dsimp only at hR
    split at hR
    · rcases List.mem_cons.mp hR with rfl | hR
      · exact h1
      · exact ih _ _ h1 R hR
    · rw [List.mem_singleton] at hR
      rw [hR]
      exact h1

theorem init_idsBelow (width height : Int) : (H264Codec.init width height).idsBelow 0 := by
  simp [H264Codec.idsBelow, H264Codec.init]

/-! ## Resolution change -/

/-- C1: a call of `EncodeBegin` or `Decode` whose (width, height) differs from the
stored geometry hands the backend a state in which encoder and decoder are
released, the context handle is null, both backend states are Uninitialized and
the stored geometry is the call's; the releases precede every backend call, and no
member function is invoked on an encoder or decoder object that existed before
the call.  With the stored geometry, the state is handed over unchanged and no
release is made. -/
theorem resolution_change_tears_down (s : H264Codec) (nextId : Nat) (width height : Int) :
    (width ≠ s.Width ∨ height ≠ s.Height →
      ((s.resolutionCheck width height).1.CudaEncoder = none ∧
        (s.resolutionCheck width height).1.CudaDecoder = none ∧
        (s.resolutionCheck width height).1.Context.Context = none ∧
        (s.resolutionCheck width height).1.EncoderBackend = .Uninitialized ∧
        (s.resolutionCheck width height).1.DecoderBackend = .Uninitialized ∧
        (s.resolutionCheck width height).1.Width = width ∧
        (s.resolutionCheck width height).1.Height = height) ∧
      (∀ e, s.CudaEncoder = some e → .releaseEncoder e ∈ (s.resolutionCheck width height).2) ∧
      (∀ d, s.CudaDecoder = some d → .releaseDecoder d ∈ (s.resolutionCheck width height).2) ∧
      (∀ c, s.Context.Context = some c →
        .cuDevicePrimaryCtxRelease s.Context.Device ∈ (s.resolutionCheck width height).2) ∧
      (∀ old, old < nextId →
        (∀ keyframe data compressed r,
          ∀ ev ∈ (EncodeBegin s nextId width height keyframe data compressed r).trace,
            ev.encoderTarget ≠ some old ∧ ev.decoderTarget ≠ some old) ∧
        (∀ data bytes decoded r,
          ∀ ev ∈ (Decode s nextId width height data bytes decoded r).trace,
            ev.encoderTarget ≠ some old ∧ ev.decoderTarget ≠ some old))) ∧
    (width = s.Width ∧ height = s.Height → s.resolutionCheck width height = (s, [])) ∧
    (∀ keyframe data compressed r,
      EncodeBegin s nextId width height keyframe data compressed r =
        { EncodeBeginNvenc (s.resolutionCheck width height).1 nextId keyframe data compressed r with
          trace := (s.resolutionCheck width height).2 ++
            (EncodeBeginNvenc (s.resolutionCheck width height).1 nextId keyframe data
              compressed r).trace }) ∧
    (∀ data bytes decoded r,
      Decode s nextId width height data bytes decoded r =
        { DecodeNvdec (s.resolutionCheck width height).1 nextId data bytes decoded r with
          trace := (s.resolutionCheck width height).2 ++
            (DecodeNvdec (s.resolutionCheck width height).1 nextId data bytes decoded r).trace })
    := by
  refine ⟨?_, ?_, fun _ _ _ _ => rfl, fun _ _ _ _ => rfl⟩
  · intro hch
    have hst := resolutionCheck_changed s width height hch
    have hn := resolutionCheck_trace s width height
    obtain ⟨hr1, hr2, hr3⟩ := resolutionCheck_releases s width height hch
    refine ⟨by rw [hst]; simp, hr1, hr2, hr3, ?_⟩
    intro old hold
    have hne : nextId ≠ old := by omega
    constructor
    · intro keyframe data compressed r ev hev
      have he : (s.resolutionCheck width height).1.CudaEncoder = none := by rw [hst]
      have h1 := EncodeBeginNvenc_absent_targets (s.resolutionCheck width height).1 nextId
        keyframe data compressed r he
      have h2 := neutral_encoderOnly nextId _ hn
      have hall : (EncodeBegin s nextId width height keyframe data compressed r).trace.all
          (SdkEvent.encoderOnly nextId) = true := by
        unfold EncodeBegin
        dsimp only
        rw [List.all_append, h1, h2]
        rfl
      have := List.all_eq_true.mp hall ev hev
      simp only [SdkEvent.encoderOnly, Bool.and_eq_true, Bool.or_eq_true, beq_iff_eq,
        Bool.not_eq_true'] at this
      obtain ⟨⟨h3, h4⟩, -⟩ := this
      refine ⟨?_, by rw [h4]; simp⟩
      rcases h3 with h3 | h3 <;> rw [h3] <;> simp [hne]
    · intro data bytes decoded r ev hev
      have hd : (s.resolutionCheck width height).1.CudaDecoder = none := by rw [hst]
      have h1 := DecodeNvdec_absent_targets (s.resolutionCheck width height).1 nextId
        data bytes decoded r hd
      have h2 := neutral_decoderOnly nextId _ hn
      have hall : (Decode s nextId width height data bytes decoded r).trace.all
          (SdkEvent.decoderOnly nextId) = true := by
        unfold Decode
        dsimp only
        rw [List.all_append, h1, h2]
        rfl
      have := List.all_eq_true.mp hall ev hev
      simp only [SdkEvent.decoderOnly, Bool.and_eq_true, Bool.or_eq_true, beq_iff_eq,
        Bool.not_eq_true'] at this
      obtain ⟨⟨h3, h4⟩, -⟩ := this
      refine ⟨by rw [h4]; simp, ?_⟩
      rcases h3 with h3 | h3 <;> rw [h3] <;> simp [hne]
  · rintro ⟨hw, hh⟩
    exact resolutionCheck_same s width height hw hh

/-- C1, at a concrete instance: the geometry change 640 x 480 to 320 x 240 tears
everything down, and the call with 640 x 480 leaves the instance as it is. -/
theorem resolution_change_tears_down_witness :
    ((320 : Int) ≠ codecActive.Width ∨ (240 : Int) ≠ codecActive.Height) ∧
    ((codecActive.resolutionCheck 320 240).1.CudaEncoder = none ∧
      (codecActive.resolutionCheck 320 240).1.CudaDecoder = none ∧
      (codecActive.resolutionCheck 320 240).1.Context.Context = none ∧
      (codecActive.resolutionCheck 320 240).1.EncoderBackend = .Uninitialized ∧
      (codecActive.resolutionCheck 320 240).1.DecoderBackend = .Uninitialized ∧
      (codecActive.resolutionCheck 320 240).1.Width = 320 ∧
      (codecActive.resolutionCheck 320 240).1.Height = 240) ∧
    ((640 : Int) = codecActive.Width ∧ (480 : Int) = codecActive.Height) ∧
    codecActive.resolutionCheck 640 480 = (codecActive, []) :=
  ⟨by decide, ((resolution_change_tears_down codecActive 2 320 240).1 (by decide)).1,
    by decide, (resolution_change_tears_down codecActive 2 640 480).2.1 (by decide)⟩

/-! ## Encoder construction over a sequence of calls -/

/-- C2, as stated, fails: on a new instance, two `EncodeBegin` calls with geometry
640 x 480 in each of which the encoder constructor throws invoke the constructor
once per call, twice in all; and on an instance that already holds an encoder for
640 x 480 an `EncodeBegin` call with that geometry invokes it not at all. -/
theorem encoder_constructor_invoked_twice :
    ((runCalls (encodeBeginCalls 640 480 [⟨true, [], [], encodeCtorThrows⟩,
        ⟨false, [], [], encodeCtorThrows⟩]) (H264Codec.init 0 0) 0).map
      fun R => ctorCalls R.trace) = [1, 1] ∧
    ¬ (((runCalls (encodeBeginCalls 640 480 [⟨true, [], [], encodeCtorThrows⟩,
        ⟨false, [], [], encodeCtorThrows⟩]) (H264Codec.init 0 0) 0).map
      fun R => ctorCalls R.trace).sum = 1) ∧
    ((runCalls (encodeBeginCalls 640 480 [⟨true, [], [], encodeOk [[1]]⟩]) codecActive 2).map
      fun R => ctorCalls R.trace) = [0] := by
  decide

theorem lazyEncoder_created (s : H264Codec) (nextId : Nat) (r : EncodeReplies)
    (he : s.CudaEncoder = none)
    (hctx : (s.Context.Create defaultGpuIndex r.driver).ok = true)
    (hctor : r.NvEncoderCuda = .returns ())
    (hparams : r.CreateDefaultEncoderParams = .returns ())
    (hcreate : r.CreateEncoder = .returns ()) :
    SdkEvent.CreateDefaultEncoderParams nextId ∈ (lazyEncoder s nextId r).trace ∧
    SdkEvent.CreateEncoder nextId ∈ (lazyEncoder s nextId r).trace := by
  unfold lazyEncoder
  simp [he, hctx, hctor, hparams, hcreate]

theorem EncodeBeginNvenc_trace_extends (s : H264Codec) (nextId : Nat) (keyframe : Bool)
    (data compressed : Bytes) (r : EncodeReplies) (ev : SdkEvent)
    (h : ev ∈ (lazyEncoder s nextId r).trace) :
    ev ∈ (EncodeBeginNvenc s nextId keyframe data compressed r).trace := by
  revert h
  unfold EncodeBeginNvenc
  generalize lazyEncoder s nextId r = st
  intro h
  dsimp only
  repeat' split
  all_goals simp [h]

/-- C2, amended: over a non-empty sequence of `EncodeBegin` calls with one geometry,
started on an instance that holds no encoder for that geometry, in whose first call
every construction step succeeds (context creation returns `true`, and the encoder
constructor, `CreateDefaultEncoderParams` and `CreateEncoder` return), every call
returns, the constructor is invoked exactly once, in the first call, creating
object `nextId` for that geometry and completing its creation there, and every call
of the sequence leaves that object in place and invokes encoder member functions on
that object only. -/
theorem encoder_constructed_once (s : H264Codec) (nextId : Nat) (width height : Int)
    (a : EncodeBeginArgs) (rest : List EncodeBeginArgs)
    (hnew : s.CudaEncoder = none ∨ width ≠ s.Width ∨ height ≠ s.Height)
    (hctx : ((s.resolutionCheck width height).1.Context.Create defaultGpuIndex
      a.replies.driver).ok = true)
    (hctor : a.replies.NvEncoderCuda = .returns ())
    (hparams : a.replies.CreateDefaultEncoderParams = .returns ())
    (hcreate : a.replies.CreateEncoder = .returns ()) :
    ∃ first later,
      runCalls (encodeBeginCalls width height (a :: rest)) s nextId = first :: later ∧
      later.length = rest.length ∧
      ctorCalls first.trace = 1 ∧
      (∃ ctx, SdkEvent.NvEncoderCuda nextId ctx width height ∈ first.trace) ∧
      SdkEvent.CreateDefaultEncoderParams nextId ∈ first.trace ∧
      SdkEvent.CreateEncoder nextId ∈ first.trace ∧
      (∀ R ∈ later, ctorCalls R.trace = 0) ∧
      (∀ R ∈ first :: later, R.codec.CudaEncoder = some nextId ∧
        ∀ ev ∈ R.trace, ∀ o, ev.encoderTarget = some o → o = nextId) := by
  obtain ⟨h1, h2, h3, h4, h5, h6⟩ := EncodeBegin_constructs s nextId width height a.keyframe
    a.data a.compressed a.replies hnew hctx hctor
  obtain ⟨b, hb⟩ := EncodeBegin_returns s nextId width height a.keyframe a.data
    a.compressed a.replies
  obtain ⟨hl, hm⟩ := runCalls_encoder_present width height nextId rest
    (EncodeBegin s nextId width height a.keyframe a.data a.compressed a.replies).codec
    (EncodeBegin s nextId width height a.keyframe a.data a.compressed a.replies).nextId h1 h2 h3
  have htargets : ∀ t : List SdkEvent, t.all (SdkEvent.encoderOnly nextId) = true →
      ∀ ev ∈ t, ∀ o, ev.encoderTarget = some o → o = nextId := by
    intro t ht ev hev o ho
    have := List.all_eq_true.mp ht ev hev
    simp only [SdkEvent.encoderOnly, Bool.and_eq_true, Bool.or_eq_true, beq_iff_eq,
      Bool.not_eq_true'] at this
    rcases this.1.1 with h | h
    · rw [h] at ho
      cases ho
    · rw [h] at ho
      exact (Option.some.inj ho).symm
  obtain ⟨c1, c2⟩ := lazyEncoder_created (s.resolutionCheck width height).1 nextId a.replies
    (resolutionCheck_encoder_absent s width height hnew) hctx hctor hparams hcreate
  have hext : ∀ ev, ev ∈ (lazyEncoder (s.resolutionCheck width height).1 nextId a.replies).trace →
      ev ∈ (EncodeBegin s nextId width height a.keyframe a.data a.compressed a.replies).trace :=
    fun ev hev => List.mem_append_right _
      (EncodeBeginNvenc_trace_extends _ nextId a.keyframe a.data a.compressed a.replies ev hev)
  refine ⟨_, _, ?_, hl, h4, ⟨_, h6⟩, hext _ c1, hext _ c2, fun R hR => (hm R hR).1, ?_⟩
  · simp [encodeBeginCalls, runCalls, Call.run, hb]
  · intro R hR
    rcases List.mem_cons.mp hR with rfl | hR
    · exact ⟨h1, htargets _ h5⟩
    · exact ⟨(hm R hR).2.1, htargets _ (hm R hR).2.2⟩

/-- C2 amended, at a concrete sequence: keyframe then non-keyframe at 640 x 480 on a
new instance. -/
theorem encoder_constructed_once_witness :
    ∃ first later,
      runCalls (encodeBeginCalls 640 480 [⟨true, [1, 2], [], encodeOk [[1], [2, 3]]⟩,
        ⟨false, [3, 4], [], encodeOk [[4]]⟩]) (H264Codec.init 0 0) 0 = first :: later ∧
      later.length = 1 ∧
      ctorCalls first.trace = 1 ∧
      (∃ ctx, SdkEvent.NvEncoderCuda 0 ctx 640 480 ∈ first.trace) ∧
      SdkEvent.CreateDefaultEncoderParams 0 ∈ first.trace ∧
      SdkEvent.CreateEncoder 0 ∈ first.trace ∧
      (∀ R ∈ later, ctorCalls R.trace = 0) ∧
      (∀ R ∈ first :: later, R.codec.CudaEncoder = some 0 ∧
        ∀ ev ∈ R.trace, ∀ o, ev.encoderTarget = some o → o = 0) :=
  encoder_constructed_once (H264Codec.init 0 0) 0 640 480
    ⟨true, [1, 2], [], encodeOk [[1], [2, 3]]⟩ [⟨false, [3, 4], [], encodeOk [[4]]⟩]
    (by decide) (by decide) (by decide) (by decide) (by decide)

/-! ## Decode: the retry loop -/

/-- C3, as stated, fails: `Decode` with width -1 and height 1 on a new instance
reaches the decoder and makes one submission, which reports success with a frame,
yet the call does not succeed: `y_bytes` is -1 and the `std::length_error` of
`decoded.resize` leaves the function.  The same happens with 46341 x 46341, where
the `int` product wraps around to a negative `y_bytes`. -/
theorem decode_frame_without_success :
    (lazyDecoder ((H264Codec.init 0 0).resolutionCheck (-1) 1).1 0
      (decodeOk fun _ => replyFrames)).ok = true ∧
    submissions (Decode (H264Codec.init 0 0) 0 (-1) 1 [0, 0, 1] 3 []
      (decodeOk fun _ => replyFrames)).trace = 1 ∧
    ((decodeOk fun _ => replyFrames).Decode (1 - 1)).gaveFrame = true ∧
    (Decode (H264Codec.init 0 0) 0 (-1) 1 [0, 0, 1] 3 []
      (decodeOk fun _ => replyFrames)).ret = .escaped ∧
    (Decode (H264Codec.init 0 0) 0 (-1) 1 [0, 0, 1] 3 []
      (decodeOk fun _ => replyFrames)).ret ≠ .returned true ∧
    (Decode (H264Codec.init 0 0) 0 46341 46341 [0, 0, 1] 3 []
      (decodeOk fun _ => replyFrames)).ret = .escaped := by
  decide

/-- C3, amended by a precondition on the size: for a `Decode` call that reaches the
decoder, the number `n` of submissions is between 1 and 3 and is the least index at
which a submission reports an error or returns a frame (3 if none does); a
submission error at `n` makes the call return `false`; two submissions without a
frame and a third with one make exactly 3 submissions; and when `y_bytes`, the
`int` product `width * height`, is not negative, the call returns `true` if and
only if submission `n` reported success with at least one frame, so that it does
in the case of the three submissions just named.  `y_bytes` is not negative
whenever `0 ≤ width * height < 2 ^ 31`, where it is the exact product. -/
theorem decode_retries (s : H264Codec) (nextId : Nat) (width height : Int) (data : Bytes)
    (bytes : Int) (decoded : Bytes) (r : DecodeReplies)
    (hreach : (lazyDecoder (s.resolutionCheck width height).1 nextId r).ok = true) :
    1 ≤ submissions (Decode s nextId width height data bytes decoded r).trace ∧
    submissions (Decode s nextId width height data bytes decoded r).trace ≤ 3 ∧
    (∀ j, j + 1 < submissions (Decode s nextId width height data bytes decoded r).trace →
      (r.Decode j).settles = false) ∧
    (submissions (Decode s nextId width height data bytes decoded r).trace < 3 →
      (r.Decode (submissions (Decode s nextId width height data bytes decoded r).trace - 1)).settles
        = true) ∧
    ((r.Decode (submissions (Decode s nextId width height data bytes decoded r).trace - 1)).isError
        = true →
      (Decode s nextId width height data bytes decoded r).ret = .returned false) ∧
    ((r.Decode 0).isError = false → (r.Decode 0).frame_count < 1 →
      (r.Decode 1).isError = false → (r.Decode 1).frame_count < 1 →
      (r.Decode 2).isError = false → 1 ≤ (r.Decode 2).frame_count →
      submissions (Decode s nextId width height data bytes decoded r).trace = 3) ∧
    (0 ≤ wrapInt32 (width * height) →
      ((Decode s nextId width height data bytes decoded r).ret = .returned true ↔
        (r.Decode (submissions (Decode s nextId width height data bytes decoded r).trace
          - 1)).gaveFrame = true) ∧
      ((r.Decode 0).isError = false → (r.Decode 0).frame_count < 1 →
        (r.Decode 1).isError = false → (r.Decode 1).frame_count < 1 →
        (r.Decode 2).isError = false → 1 ≤ (r.Decode 2).frame_count →
        (Decode s nextId width height data bytes decoded r).ret = .returned true)) ∧
    (0 ≤ width * height → width * height < 2 ^ 31 →
      wrapInt32 (width * height) = width * height) := by
  obtain ⟨hW, hH⟩ := resolutionCheck_geometry s width height
  have hn := (neutral_counts _ (resolutionCheck_trace s width height)).2
  obtain ⟨hcount, hfalse, htrue⟩ := DecodeNvdec_reached (s.resolutionCheck width height).1 nextId
    data bytes decoded r hreach
  rw [hW, hH] at htrue
  have hsub : submissions (Decode s nextId width height data bytes decoded r).trace =
      firstSettled r.Decode := by
    unfold Decode
    dsimp only
    unfold submissions at hn hcount ⊢
    rw [List.countP_append, hn, hcount, Nat.zero_add]
  have hret : (Decode s nextId width height data bytes decoded r).ret =
      (DecodeNvdec (s.resolutionCheck width height).1 nextId data bytes decoded r).ret := rfl
  obtain ⟨l1, l2, l3, l4⟩ := firstSettled_least r.Decode
  rw [hsub, hret]
  have h3 : (r.Decode 0).isError = false → (r.Decode 0).frame_count < 1 →
      (r.Decode 1).isError = false → (r.Decode 1).frame_count < 1 →
      firstSettled r.Decode = 3 := by
    intro e0 f0 e1 f1
    have g0 : ¬ 1 ≤ (r.Decode 0).frame_count := by omega
    have g1 : ¬ 1 ≤ (r.Decode 1).frame_count := by omega
    simp [firstSettled, DecodeReply.settles, e0, g0, e1, g1]
  refine ⟨l1, l2, l3, l4, ?_, ?_, ?_, ?_⟩
  rotate_right
  · intro h0 h1
    unfold wrapInt32
    omega
  · intro he
    apply hfalse
    simp [DecodeReply.gaveFrame, he]
  · intro e0 f0 e1 f1 _ _
    exact h3 e0 f0 e1 f1
  · intro hsize
    have hiff : (DecodeNvdec (s.resolutionCheck width height).1 nextId data bytes decoded r).ret =
        .returned true ↔ (r.Decode (firstSettled r.Decode - 1)).gaveFrame = true := by
      constructor
      · intro h
        by_contra hg
        rw [hfalse (by simpa using hg)] at h
        cases h
      · intro hg
        exact ((htrue hg).2 hsize).1
    refine ⟨hiff, ?_⟩
    intro e0 f0 e1 f1 e2 f2
    apply hiff.mpr
    rw [h3 e0 f0 e1 f1]
    simp [DecodeReply.gaveFrame, e2, f2]

/-- C3 amended, at a concrete call: 2 x 2 on a new instance, two submissions without
a frame and a third with frames give 3 submissions and success. -/
theorem decode_retries_witness :
    (lazyDecoder ((H264Codec.init 0 0).resolutionCheck 2 2).1 0 (decodeOk thirdTime)).ok = true ∧
    (0 : Int) ≤ wrapInt32 (2 * 2) ∧
    submissions (Decode (H264Codec.init 0 0) 0 2 2 [0, 0, 1] 3 [] (decodeOk thirdTime)).trace = 3 ∧
    (Decode (H264Codec.init 0 0) 0 2 2 [0, 0, 1] 3 [] (decodeOk thirdTime)).ret = .returned true :=
  ⟨by decide, by decide,
    (decode_retries (H264Codec.init 0 0) 0 2 2 [0, 0, 1] 3 [] (decodeOk thirdTime)
      (by decide)).2.2.2.2.2.1 (by decide) (by decide) (by decide) (by decide) (by decide)
      (by decide),
    ((decode_retries (H264Codec.init 0 0) 0 2 2 [0, 0, 1] 3 [] (decodeOk thirdTime)
      (by decide)).2.2.2.2.2.2.1 (by decide)).2 (by decide) (by decide) (by decide) (by decide)
      (by decide) (by decide)⟩

/-! ## Output buffers -/

/-- C4: whenever `EncodeBegin`, `EncodeFinish` or `Decode` returns `false`, the
caller's output vector holds what it held before the call; and a `Decode` that
reaches the decoder and gets no frame from any of its submissions makes 3
submissions, returns `false` and leaves the output vector as it was. -/
theorem failure_leaves_output_unchanged (s : H264Codec) (nextId : Nat) :
    (∀ width height keyframe data compressed r,
      (EncodeBegin s nextId width height keyframe data compressed r).ret = .returned false →
      (EncodeBegin s nextId width height keyframe data compressed r).buf = compressed) ∧
    (∀ compressed r,
      (EncodeFinish s nextId compressed r).ret = .returned false →
      (EncodeFinish s nextId compressed r).buf = compressed) ∧
    (∀ width height data bytes decoded r,
      (Decode s nextId width height data bytes decoded r).ret = .returned false →
      (Decode s nextId width height data bytes decoded r).buf = decoded) ∧
    (∀ width height data bytes decoded r,
      (lazyDecoder (s.resolutionCheck width height).1 nextId r).ok = true →
      (∀ i, i < 3 → (r.Decode i).isError = false ∧ (r.Decode i).frame_count = 0) →
      submissions (Decode s nextId width height data bytes decoded r).trace = 3 ∧
      (Decode s nextId width height data bytes decoded r).ret = .returned false ∧
      (Decode s nextId width height data bytes decoded r).buf = decoded) := by
  refine ⟨?_, ?_, ?_, ?_⟩
  · intro width height keyframe data compressed r h
    exact EncodeBeginNvenc_false_buf _ nextId keyframe data compressed r h
  · intro compressed r h
    exact EncodeFinishNvenc_false_buf s nextId compressed r h
  · intro width height data bytes decoded r h
    exact DecodeNvdec_false_buf _ nextId data bytes decoded r h
  · intro width height data bytes decoded r hreach hz
    have hn := (neutral_counts _ (resolutionCheck_trace s width height)).2
    obtain ⟨hcount, hfalse, -⟩ := DecodeNvdec_reached (s.resolutionCheck width height).1 nextId
      data bytes decoded r hreach
    obtain ⟨e0, f0⟩ := hz 0 (by omega)
    obtain ⟨e1, f1⟩ := hz 1 (by omega)
    obtain ⟨e2, f2⟩ := hz 2 (by omega)
    have h3 : firstSettled r.Decode = 3 := by
      simp [firstSettled, DecodeReply.settles, e0, f0, e1, f1]
    have hg : (r.Decode (firstSettled r.Decode - 1)).gaveFrame = false := by
      rw [h3]
      simp [DecodeReply.gaveFrame, e2, f2]
    have hret := hfalse hg
    refine ⟨?_, hret, DecodeNvdec_false_buf _ nextId data bytes decoded r hret⟩
    unfold Decode
    dsimp only
    unfold submissions at hn hcount ⊢
    rw [List.countP_append, hn, hcount, h3]

/-- C4, at concrete calls: an `EncodeBegin` whose constructor throws, an `EncodeFinish`
with an empty drain and a `Decode` without frames each return `false` and leave the
vector `[9, 9]` as it was. -/
theorem failure_leaves_output_unchanged_witness :
    (EncodeBegin (H264Codec.init 0 0) 0 2 2 true [1, 2, 3, 4, 5, 6] [9, 9] encodeCtorThrows).buf
      = [9, 9] ∧
    (EncodeFinish codecActive 2 [9, 9] ⟨[], false⟩).buf = [9, 9] ∧
    (Decode (H264Codec.init 0 0) 0 2 2 [0, 0, 1] 3 [9, 9] (decodeOk fun _ => replyNoFrame)).buf
      = [9, 9] ∧
    (submissions (Decode (H264Codec.init 0 0) 0 2 2 [0, 0, 1] 3 [9, 9]
        (decodeOk fun _ => replyNoFrame)).trace = 3 ∧
      (Decode (H264Codec.init 0 0) 0 2 2 [0, 0, 1] 3 [9, 9]
        (decodeOk fun _ => replyNoFrame)).ret = .returned false ∧
      (Decode (H264Codec.init 0 0) 0 2 2 [0, 0, 1] 3 [9, 9]
        (decodeOk fun _ => replyNoFrame)).buf = [9, 9]) :=
  ⟨(failure_leaves_output_unchanged (H264Codec.init 0 0) 0).1 2 2 true [1, 2, 3, 4, 5, 6] [9, 9]
      encodeCtorThrows (by decide),
    (failure_leaves_output_unchanged codecActive 2).2.1 [9, 9] ⟨[], false⟩ (by decide),
    (failure_leaves_output_unchanged (H264Codec.init 0 0) 0).2.2.1 2 2 [0, 0, 1] 3 [9, 9]
      (decodeOk fun _ => replyNoFrame) (by decide),
    (failure_leaves_output_unchanged (H264Codec.init 0 0) 0).2.2.2 2 2 [0, 0, 1] 3 [9, 9]
      (decodeOk fun _ => replyNoFrame) (by decide) (fun i _ => ⟨rfl, rfl⟩)⟩

/-- C5: after an `EncodeBegin` that returns `true`, whatever the output vector held,
it holds the bytes of the units the encoder left in the packet vector for this call,
concatenated in order, and nothing else; its length is the sum of the unit lengths;
and the encoder was asked for exactly those units in this call. -/
theorem encode_begin_output (s : H264Codec) (nextId : Nat) (width height : Int)
    (keyframe : Bool) (data compressed : Bytes) (r : EncodeReplies)
    (h : (EncodeBegin s nextId width height keyframe data compressed r).ret = .returned true) :
    (EncodeBegin s nextId width height keyframe data compressed r).buf
      = r.EncodeFrame.vPacket.flatten ∧
    (EncodeBegin s nextId width height keyframe data compressed r).buf.length
      = (r.EncodeFrame.vPacket.map List.length).sum ∧
    (EncodeBegin s nextId width height keyframe data compressed r).codec.VideoTemp
      = r.EncodeFrame.vPacket ∧
    (r.EncodeFrame.vPacket = [] →
      (EncodeBegin s nextId width height keyframe data compressed r).buf = []) := by
  obtain ⟨h1, h2⟩ := EncodeBeginNvenc_true_buf _ nextId keyframe data compressed r h
  have hb : (EncodeBegin s nextId width height keyframe data compressed r).buf
      = r.EncodeFrame.vPacket.flatten := h1
  refine ⟨hb, ?_, h2, ?_⟩
  · rw [hb, List.length_flatten]
  · intro he
    rw [hb, he]
    rfl

/-- C5, at a concrete call: units `[1]` and `[2, 3]` replace the old content
`[9, 9, 9, 9, 9]`. -/
theorem encode_begin_output_witness :
    (EncodeBegin (H264Codec.init 0 0) 0 2 2 true [1, 2, 3, 4, 5, 6] [9, 9, 9, 9, 9]
      (encodeOk [[1], [2, 3]])).ret = .returned true ∧
    (EncodeBegin (H264Codec.init 0 0) 0 2 2 true [1, 2, 3, 4, 5, 6] [9, 9, 9, 9, 9]
      (encodeOk [[1], [2, 3]])).buf = [1, 2, 3] :=
  ⟨by decide,
    (encode_begin_output (H264Codec.init 0 0) 0 2 2 true [1, 2, 3, 4, 5, 6] [9, 9, 9, 9, 9]
      (encodeOk [[1], [2, 3]]) (by decide)).1⟩

/-- C6: on an instance that holds an encoder, with output vector `B`: when the
end-of-stream drain returns a non-empty list of units without throwing,
`EncodeFinish` returns `true` and the vector is `B` followed by the bytes of the
units in order; when the drain returns no unit, `EncodeFinish` returns `false`. -/
theorem encode_finish_appends (s : H264Codec) (nextId : Nat) (compressed : Bytes)
    (r : PacketReply) (enc : Nat) (henc : s.CudaEncoder = some enc) :
    (r.thrown = false → r.vPacket ≠ [] →
      (EncodeFinish s nextId compressed r).ret = .returned true ∧
      (EncodeFinish s nextId compressed r).buf = compressed ++ r.vPacket.flatten ∧
      (EncodeFinish s nextId compressed r).trace = [.EndEncode enc]) ∧
    (r.vPacket = [] →
      (EncodeFinish s nextId compressed r).ret = .returned false ∧
      (EncodeFinish s nextId compressed r).buf = compressed) := by
  have hu := appendUnits_append r.vPacket compressed
  unfold EncodeFinish EncodeFinishNvenc
  simp only [henc]
  constructor
  · intro ht hne
    have hemp : r.vPacket.isEmpty = false := by
      cases hv : r.vPacket with
      | nil => exact absurd hv hne
      | cons _ _ => rfl
    simp [ht, hemp, hu]
  · intro he
    by_cases ht : r.thrown = true
    · simp [ht]
    · simp [ht, he]

/-- C6, at concrete calls on an instance with an encoder and `B = [9, 9]`. -/
theorem encode_finish_appends_witness :
    (EncodeFinish codecActive 2 [9, 9] ⟨[[1], [2, 3]], false⟩).ret = .returned true ∧
    (EncodeFinish codecActive 2 [9, 9] ⟨[[1], [2, 3]], false⟩).buf = [9, 9, 1, 2, 3] ∧
    (EncodeFinish codecActive 2 [9, 9] ⟨[], false⟩).ret = .returned false :=
  ⟨((encode_finish_appends codecActive 2 [9, 9] ⟨[[1], [2, 3]], false⟩ 0 rfl).1 rfl
      (by decide)).1,
    ((encode_finish_appends codecActive 2 [9, 9] ⟨[[1], [2, 3]], false⟩ 0 rfl).1 rfl
      (by decide)).2.1,
    ((encode_finish_appends codecActive 2 [9, 9] ⟨[], false⟩ 0 rfl).2 rfl).1⟩

/-! ## Decode: the output -/

theorem DecodeNvdec_true_reached (s : H264Codec) (nextId : Nat) (data : Bytes) (bytes : Int)
    (decoded : Bytes) (r : DecodeReplies) :
    (DecodeNvdec s nextId data bytes decoded r).ret = .returned true →
    (lazyDecoder s nextId r).ok = true := by
  unfold DecodeNvdec
  by_cases hok : (lazyDecoder s nextId r).ok = false
  · simp [hok]
  · intro _
    simpa using hok

theorem Decode_reached (s : H264Codec) (nextId : Nat) (width height : Int) (data : Bytes)
    (bytes : Int) (decoded : Bytes) (r : DecodeReplies)
    (hreach : (lazyDecoder (s.resolutionCheck width height).1 nextId r).ok = true) :
    submissions (Decode s nextId width height data bytes decoded r).trace
      = firstSettled r.Decode ∧
    ((r.Decode (firstSettled r.Decode - 1)).gaveFrame = false →
      (Decode s nextId width height data bytes decoded r).ret = .returned false) ∧
    ((r.Decode (firstSettled r.Decode - 1)).gaveFrame = true →
      (wrapInt32 (width * height) < 0 →
        (Decode s nextId width height data bytes decoded r).ret = .escaped) ∧
      (0 ≤ wrapInt32 (width * height) →
        (Decode s nextId width height data bytes decoded r).ret = .returned true ∧
        (Decode s nextId width height data bytes decoded r).buf =
          readBytes ((r.Decode (firstSettled r.Decode - 1)).frames 0)
            (wrapInt32 (width * height)).toNat)) := by
  obtain ⟨hW, hH⟩ := resolutionCheck_geometry s width height
  have hn := (neutral_counts _ (resolutionCheck_trace s width height)).2
  obtain ⟨hcount, hfalse, htrue⟩ := DecodeNvdec_reached (s.resolutionCheck width height).1 nextId
    data bytes decoded r hreach
  rw [hW, hH] at htrue
  refine ⟨?_, hfalse, htrue⟩
  unfold Decode
  dsimp only
  unfold submissions at hn hcount ⊢
  rw [List.countP_append, hn, hcount, Nat.zero_add]

theorem wrapInt32_of_range (x : Int) (h0 : 0 ≤ x) (h1 : x < 2 ^ 31) : wrapInt32 x = x := by
  unfold wrapInt32
  omega

theorem toNat_mul_of_pos (a b : Int) (ha : 0 < a) (hb : 0 < b) :
    (a * b).toNat = a.toNat * b.toNat := by
  obtain ⟨m, rfl⟩ := Int.eq_ofNat_of_zero_le ha.le
  obtain ⟨n, rfl⟩ := Int.eq_ofNat_of_zero_le hb.le
  rw [← Int.natCast_mul]
  simp only [Int.toNat_natCast]

/-- C7, as stated, fails: `Decode` with width and height 65536 on a new instance,
answered with a frame, returns `true`, but the `int` product `y_bytes` wraps around
to 0 and the output vector is left empty, not `width * height` bytes long. -/
theorem decode_output_shorter_than_luma :
    (0 : Int) < 65536 ∧
    (Decode (H264Codec.init 0 0) 0 65536 65536 [0, 0, 1] 3 [9, 9]
      (decodeOk fun _ => replyFrames)).ret = .returned true ∧
    (Decode (H264Codec.init 0 0) 0 65536 65536 [0, 0, 1] 3 [9, 9]
      (decodeOk fun _ => replyFrames)).buf = [] ∧
    ¬ (((Decode (H264Codec.init 0 0) 0 65536 65536 [0, 0, 1] 3 [9, 9]
      (decodeOk fun _ => replyFrames)).buf.length : Int) = 65536 * 65536) := by
  decide

/-- C7, amended by the bound `width * height < 2 ^ 31`: after a
`Decode(width, height, ...)` that returns `true`, with positive width and height
whose product is below `2 ^ 31` and whatever the output vector held, the output
vector has exactly `width * height` bytes, and they are bytes
`0 .. width * height - 1` of `frames[0]` as returned by the submission that ended
the retry loop, the first one to return a frame; no other returned frame and no
later byte of `frames[0]` enters the output. -/
theorem decode_output_is_luma (s : H264Codec) (nextId : Nat) (width height : Int)
    (data : Bytes) (bytes : Int) (decoded : Bytes) (r : DecodeReplies)
    (hw : 0 < width) (hh : 0 < height) (hsize : width * height < 2 ^ 31)
    (hret : (Decode s nextId width height data bytes decoded r).ret = .returned true) :
    (Decode s nextId width height data bytes decoded r).buf.length
      = width.toNat * height.toNat ∧
    (((Decode s nextId width height data bytes decoded r).buf.length : Int) = width * height) ∧
    1 ≤ submissions (Decode s nextId width height data bytes decoded r).trace ∧
    (r.Decode (submissions (Decode s nextId width height data bytes decoded r).trace - 1)).gaveFrame
      = true ∧
    (∀ j, j + 1 < submissions (Decode s nextId width height data bytes decoded r).trace →
      (r.Decode j).gaveFrame = false) ∧
    (Decode s nextId width height data bytes decoded r).buf =
      readBytes
        ((r.Decode (submissions (Decode s nextId width height data bytes decoded r).trace
          - 1)).frames 0)
        (width.toNat * height.toNat) ∧
    (∀ j, j < width.toNat * height.toNat →
      (Decode s nextId width height data bytes decoded r).buf[j]? =
        some ((r.Decode (submissions (Decode s nextId width height data bytes decoded r).trace
          - 1)).frames 0 j)) := by
  have hreach := DecodeNvdec_true_reached _ nextId data bytes decoded r hret
  obtain ⟨hsub, hfalse, htrue⟩ := Decode_reached s nextId width height data bytes decoded r hreach
  obtain ⟨l1, -, l3, -⟩ := firstSettled_least r.Decode
  have hpos : 0 < width * height := Int.mul_pos hw hh
  have hwrap : wrapInt32 (width * height) = width * height :=
    wrapInt32_of_range _ hpos.le hsize
  have hg : (r.Decode (firstSettled r.Decode - 1)).gaveFrame = true := by
    by_contra hg
    rw [hfalse (by simpa using hg)] at hret
    cases hret
  obtain ⟨-, t2⟩ := htrue hg
  rw [hwrap] at t2
  obtain ⟨-, hbuf⟩ := t2 hpos.le
  rw [toNat_mul_of_pos width height hw hh] at hbuf
  have hlen : (Decode s nextId width height data bytes decoded r).buf.length
      = width.toNat * height.toNat := by
    rw [hbuf, readBytes_length]
  rw [hsub]
  refine ⟨hlen, ?_, l1, hg, ?_, hbuf, ?_⟩
  · rw [hlen, Nat.cast_mul, Int.toNat_of_nonneg hw.le, Int.toNat_of_nonneg hh.le]
  · intro j hj
    have := l3 j hj
    simp only [DecodeReply.settles, Bool.or_eq_false_iff, decide_eq_false_iff_not] at this
    simp [DecodeReply.gaveFrame, this.1, this.2]
  · intro j hj
    rw [hbuf]
    simp [readBytes, hj]

/-- C7 amended, at a concrete call: 2 x 2 on a new instance, frames arriving with
the third submission; the output vector `[9]` becomes the first four bytes of
frame 0. -/
theorem decode_output_is_luma_witness :
    (0 : Int) < 2 ∧ (2 : Int) * 2 < 2 ^ 31 ∧
    (Decode (H264Codec.init 0 0) 0 2 2 [0, 0, 1] 3 [9] (decodeOk thirdTime)).ret
      = .returned true ∧
    (Decode (H264Codec.init 0 0) 0 2 2 [0, 0, 1] 3 [9] (decodeOk thirdTime)).buf.length = 4 ∧
    (Decode (H264Codec.init 0 0) 0 2 2 [0, 0, 1] 3 [9] (decodeOk thirdTime)).buf = [1, 2, 3, 4] :=
  ⟨by decide, by decide, by decide,
    (decode_output_is_luma (H264Codec.init 0 0) 0 2 2 [0, 0, 1] 3 [9] (decodeOk thirdTime)
      (by decide) (by decide) (by decide) (by decide)).1,
    (decode_output_is_luma (H264Codec.init 0 0) 0 2 2 [0, 0, 1] 3 [9] (decodeOk thirdTime)
      (by decide) (by decide) (by decide) (by decide)).2.2.2.2.2.1⟩

/-! ## Picture parameters -/

theorem picParams_requestsAs (enc : Nat) (keyframe : Bool) (frame : NvEncInputFrame)
    (timestamp : Nat) :
    (SdkEvent.EncodeFrame enc (picParams keyframe frame timestamp)).requestsAs keyframe = true := by
  cases keyframe <;> simp [SdkEvent.requestsAs, picParams] <;> decide

theorem lazyEncoder_requestsAs (s : H264Codec) (nextId : Nat) (r : EncodeReplies)
    (keyframe : Bool) :
    (lazyEncoder s nextId r).trace.all (SdkEvent.requestsAs keyframe) = true := by
  have hc : (s.Context.Create defaultGpuIndex r.driver).trace.all
      (SdkEvent.requestsAs keyframe) = true := by
    rw [List.all_eq_true]
    intro ev hev
    have := List.all_eq_true.mp (Create_trace s.Context defaultGpuIndex r.driver) ev hev
    simp only [SdkEvent.neutral, Bool.and_eq_true, beq_iff_eq, Bool.not_eq_true'] at this
    cases ev <;> simp_all [SdkEvent.requestsAs, SdkEvent.encoderTarget]
  revert hc
  unfold lazyEncoder
  generalize s.Context.Create defaultGpuIndex r.driver = c
  intro hc
  cases s.CudaEncoder with
  | some e => simp
  | none =>
    by_cases hok : c.ok = false
    · simp [hok, hc]
    · cases r.NvEncoderCuda <;> cases r.CreateDefaultEncoderParams <;> cases r.CreateEncoder <;>
        simp [hok, hc, SdkEvent.requestsAs]

theorem EncodeBeginNvenc_requestsAs (s : H264Codec) (nextId : Nat) (keyframe : Bool)
    (data compressed : Bytes) (r : EncodeReplies) :
    (EncodeBeginNvenc s nextId keyframe data compressed r).trace.all
      (SdkEvent.requestsAs keyframe) = true ∧
    ((EncodeBeginNvenc s nextId keyframe data compressed r).ret = .returned true →
      ∃ enc p, SdkEvent.EncodeFrame enc p ∈
        (EncodeBeginNvenc s nextId keyframe data compressed r).trace) := by
  have hl := lazyEncoder_requestsAs s nextId r keyframe
  revert hl
  unfold EncodeBeginNvenc
  generalize lazyEncoder s nextId r = st
  intro hl
  have g1 : ∀ e, (SdkEvent.GetNextInputFrame e).requestsAs keyframe = true := fun _ => rfl
  have g2 : ∀ c d p w h, (SdkEvent.CopyToDeviceFrame c d p w h).requestsAs keyframe = true :=
    fun _ _ _ _ _ => rfl
  dsimp only
  repeat' split
  all_goals simp_all [picParams_requestsAs]
  exact ⟨_, _, Or.inr ⟨rfl, rfl⟩⟩

/-- C8: in every `EncodeBegin` call, the picture parameters of each frame submitted
to the encoder have the SPS/PPS flag and the forced-IDR flag set and the IDR picture
type if and only if `keyframe` is true; with `keyframe` false the picture type is P
and neither flag is set; and a call that returns `true` has submitted a frame. -/
theorem keyframe_requests_idr (s : H264Codec) (nextId : Nat) (width height : Int)
    (keyframe : Bool) (data compressed : Bytes) (r : EncodeReplies) :
    (∀ enc p,
      SdkEvent.EncodeFrame enc p ∈ (EncodeBegin s nextId width height keyframe data
        compressed r).trace →
      ((flagSet p.encodePicFlags NV_ENC_PIC_FLAG_OUTPUT_SPSPPS = true ∧
          flagSet p.encodePicFlags NV_ENC_PIC_FLAG_FORCEIDR = true ∧
          p.pictureType = NV_ENC_PIC_TYPE_IDR) ↔ keyframe = true) ∧
      (keyframe = false →
        p.pictureType = NV_ENC_PIC_TYPE_P ∧
        flagSet p.encodePicFlags NV_ENC_PIC_FLAG_OUTPUT_SPSPPS = false ∧
        flagSet p.encodePicFlags NV_ENC_PIC_FLAG_FORCEIDR = false)) ∧
    ((EncodeBegin s nextId width height keyframe data compressed r).ret = .returned true →
      ∃ enc p, SdkEvent.EncodeFrame enc p ∈
        (EncodeBegin s nextId width height keyframe data compressed r).trace) := by
  obtain ⟨h1, h2⟩ := EncodeBeginNvenc_requestsAs (s.resolutionCheck width height).1 nextId
    keyframe data compressed r
  have hn := resolutionCheck_trace s width height
  constructor
  · intro enc p hmem
    have hreq : (SdkEvent.EncodeFrame enc p).requestsAs keyframe = true := by
      unfold EncodeBegin at hmem
      dsimp only at hmem
      rcases List.mem_append.mp hmem with hm | hm
      · have := List.all_eq_true.mp hn _ hm
        simp [SdkEvent.neutral, SdkEvent.encoderTarget] at this
      · exact List.all_eq_true.mp h1 _ hm
    simp only [SdkEvent.requestsAs, Bool.and_eq_true, beq_iff_eq] at hreq
    obtain ⟨⟨f1, f2⟩, f3⟩ := hreq
    cases keyframe with
    | true =>
      simp only [if_true] at f3
      simp [f1, f2, f3]
    | false =>
      simp only [Bool.false_eq_true, if_false] at f3
      simp [f1, f2, f3, NV_ENC_PIC_TYPE_P, NV_ENC_PIC_TYPE_IDR]
  · intro hret
    obtain ⟨enc, p, hm⟩ := h2 hret
    exact ⟨enc, p, List.mem_append_right _ hm⟩

/-- C8, at two consecutive calls with geometry 2 x 2 on a new instance, keyframe
true and then false: call 1 submits a frame with both flags and the IDR type, call 2
a frame of type P with neither flag. -/
theorem keyframe_requests_idr_witness :
    (flagSet 6 NV_ENC_PIC_FLAG_OUTPUT_SPSPPS = true ∧
      flagSet 6 NV_ENC_PIC_FLAG_FORCEIDR = true ∧ 3 = NV_ENC_PIC_TYPE_IDR) ∧
    ((0 : Nat) = NV_ENC_PIC_TYPE_P ∧
      flagSet 0 NV_ENC_PIC_FLAG_OUTPUT_SPSPPS = false ∧
      flagSet 0 NV_ENC_PIC_FLAG_FORCEIDR = false) :=
  ⟨((keyframe_requests_idr (H264Codec.init 0 0) 0 2 2 true [1, 2, 3, 4, 5, 6] []
      (encodeOk [[1]])).1 0 ⟨1024, 6, 3, 0⟩ (by decide)).1.mpr rfl,
    ((keyframe_requests_idr
      (EncodeBegin (H264Codec.init 0 0) 0 2 2 true [1, 2, 3, 4, 5, 6] [] (encodeOk [[1]])).codec
      1 2 2 false [1, 2, 3, 4, 5, 6] [] (encodeOk [[2]])).1 0 ⟨1024, 0, 0, 1⟩ (by decide)).2 rfl⟩

/-! ## Failures of encoder construction -/

/-- C9, evaluated at the failing input: on a new instance, `EncodeBegin` with
geometry 2 x 2 in which `CreateEncoder` throws returns `false` and leaves encoder
object 0 in `CudaEncoder`; the next `EncodeBegin` with the same geometry makes no
constructor call and no `CreateEncoder` call and asks that object for an input
frame. -/
theorem create_encoder_failure_keeps_encoder :
    (EncodeBegin (H264Codec.init 0 0) 0 2 2 true [1, 2, 3, 4, 5, 6] []
      encodeCreateEncoderThrows).ret = .returned false ∧
    (EncodeBegin (H264Codec.init 0 0) 0 2 2 true [1, 2, 3, 4, 5, 6] []
      encodeCreateEncoderThrows).codec.CudaEncoder = some 0 ∧
    (EncodeBegin (H264Codec.init 0 0) 0 2 2 true [1, 2, 3, 4, 5, 6] []
      encodeCreateEncoderThrows).codec.CudaEncoder ≠ none ∧
    (EncodeBegin
      (EncodeBegin (H264Codec.init 0 0) 0 2 2 true [1, 2, 3, 4, 5, 6] []
        encodeCreateEncoderThrows).codec
      1 2 2 true [1, 2, 3, 4, 5, 6] [] (encodeOk [[1]])).trace =
      [.GetNextInputFrame 0, .CopyToDeviceFrame (some 7) [1, 2, 3, 4, 5, 6] 1024 2 2,
        .EncodeFrame 0 ⟨1024, 6, 3, 0⟩] := by
  decide

/-- C10, evaluated at the failing inputs: `EncodeFinish` dereferences the empty
`CudaEncoder` on a new instance, after an `EncodeBegin` whose encoder constructor
threw, and after a `Decode` with a new geometry released the encoder; in none of
them does it return `false`. -/
theorem encode_finish_without_encoder :
    (EncodeFinish (H264Codec.init 0 0) 0 [9, 9] ⟨[[1]], false⟩).ret = .undefined ∧
    (EncodeFinish
      (EncodeBegin (H264Codec.init 0 0) 0 2 2 true [1, 2, 3, 4, 5, 6] []
        encodeCtorThrows).codec 1 [9, 9] ⟨[[1]], false⟩).ret = .undefined ∧
    (EncodeFinish
      (Decode codecActive 2 2 2 [0, 0, 1] 3 [] (decodeOk thirdTime)).codec
      3 [9, 9] ⟨[[1]], false⟩).ret = .undefined ∧
    (EncodeFinish (H264Codec.init 0 0) 0 [9, 9] ⟨[[1]], false⟩).ret ≠ .returned false := by
  decide

end zdepth
